import Mathlib

/-!
Formal model of the workout-logbook repository (three Python variants:
`workout_optimization.py` — the console variant, `workout_op_gui.py` — the
basic windowed variant, and `workout_app.py` — the extended windowed variant).

The embedding is shallow: Python dictionaries keyed by the 8 muscle-group
strings are modelled as association lists whose keys are exactly
`MUSCLE_GROUPS`; Python floats are modelled as exact rationals (`PyFloat`,
normalised fractions with a kernel-computable gcd — rounding of IEEE floats
is not modelled, and no claim below depends on it); files are modelled as
`Option` of their parsed content (`none` = the file does not exist); user
input streams are lists of the strings the user types; an uncaught Python
exception is modelled by an explicit `crash` (or `none`) result.

Namespaces: `Console` embeds `workout_optimization.py`, `Gui` embeds
`workout_op_gui.py`, `App` embeds `workout_app.py`.  Definitions shared
verbatim by the three sources (the data classes and their `to_dict`
serialisation, the previous-session scan) are defined once at top level.
-/

/-! ### Python primitive models -/

/-- Whitespace test used to model Python's stripping of leading/trailing
whitespace in `str.strip()`, `int()` and `float()` (ASCII whitespace). -/
def isWs (c : Char) : Bool := c = ' ' || c = '\t' || c = '\n' || c = '\r'

/-- Strip leading and trailing whitespace from a character list. -/
def stripWs (cs : List Char) : List Char :=
  ((cs.dropWhile isWs).reverse.dropWhile isWs).reverse

/-- Model of Python's `str.strip()`. -/
def pyStrip (s : String) : String := String.mk (stripWs s.data)

/-- Model of Python's `str.lower()` (ASCII case folding suffices here). -/
def pyLower (s : String) : String := String.mk (s.data.map Char.toLower)

/-- Value of a decimal digit character, `none` if not a digit. -/
def digitVal? (c : Char) : Option Nat :=
  if '0' ≤ c ∧ c ≤ '9' then some (c.toNat - '0'.toNat) else none

/-- Value of a non-empty all-digit character list, `none` otherwise. -/
def digitsVal? : List Char → Option Nat
  | [] => none
  | cs => cs.foldlM (fun acc c => (digitVal? c).map (fun d => acc * 10 + d)) 0

/-- Sign-and-digits integer parse on a character list. -/
def intVal? : List Char → Option Int
  | '-' :: cs => (digitsVal? cs).map (fun n => -(n : Int))
  | '+' :: cs => (digitsVal? cs).map (fun n => (n : Int))
  | cs => (digitsVal? cs).map (fun n => (n : Int))

/-- Model of Python's `int(str)`: strip whitespace, then an optionally signed
run of decimal digits; everything else raises `ValueError` (`none` here).
(Underscore separators and non-ASCII digits are not modelled; no input used
by the program or the claims contains them.) -/
def pyInt? (s : String) : Option Int := intVal? (stripWs s.data)

/-- Lexicographic strict comparison of character lists by code point —
exactly Python's `<` on strings. -/
def strLtList : List Char → List Char → Bool
  | _, [] => false
  | [], _ :: _ => true
  | a :: as, b :: bs => a.toNat < b.toNat || (a.toNat = b.toNat && strLtList as bs)

/-- Model of Python's `<` on strings (code-point lexicographic).  The sources
sometimes compare ISO `YYYY-MM-DD` date strings directly and sometimes
compare the dates obtained by `strptime`; on well-formed ISO strings the two
orders coincide, and this single model is used for both. -/
def pyStrLt (a b : String) : Bool := strLtList a.data b.data

/-! ### PyFloat: an exact-rational model of Python floats

Arithmetic in the program is `weight * reps` sums and differences; IEEE
rounding never matters for the claims, so floats are modelled as normalised
fractions.  The gcd is computed with an explicit fuel argument so that every
operation reduces inside the kernel. -/

/-- Fuel-driven Euclidean gcd; `fuel ≥ a` steps always suffice. -/
def gcdAux : Nat → Nat → Nat → Nat
  | 0, _, b => b
  | _ + 1, 0, b => b
  | fuel + 1, a + 1, b => gcdAux fuel (b % (a + 1)) (a + 1)

/-- Kernel-computable gcd. -/
def pyGcd (a b : Nat) : Nat := gcdAux (a + 1) a b

/-- Exact rational standing in for a Python float. -/
structure PyFloat where
  num : Int
  den : Nat
deriving DecidableEq

/-- Build a normalised `PyFloat` from numerator and (positive) denominator. -/
def PyFloat.norm (n : Int) (d : Nat) : PyFloat :=
  let g := pyGcd n.natAbs d
  if g = 0 then ⟨0, 1⟩ else ⟨n / (g : Int), d / g⟩

def PyFloat.ofInt (n : Int) : PyFloat := ⟨n, 1⟩

def PyFloat.zero : PyFloat := ⟨0, 1⟩

def PyFloat.add (a b : PyFloat) : PyFloat :=
  PyFloat.norm (a.num * (b.den : Int) + b.num * (a.den : Int)) (a.den * b.den)

def PyFloat.sub (a b : PyFloat) : PyFloat :=
  PyFloat.norm (a.num * (b.den : Int) - b.num * (a.den : Int)) (a.den * b.den)

def PyFloat.mul (a b : PyFloat) : PyFloat :=
  PyFloat.norm (a.num * b.num) (a.den * b.den)

/-- Multiply a float by a Python int (`weight * reps`). -/
def PyFloat.mulInt (a : PyFloat) (n : Int) : PyFloat := a.mul (PyFloat.ofInt n)

/-- Model of Python's `float(str)`: strip whitespace, then an optionally
signed decimal number, either a digit run or `digits.digits`.  (Exponent
forms, `inf`/`nan` and bare `1.` / `.5` forms are not modelled; no input
used by the program or the claims has those shapes.) -/
def pyFloat? (s : String) : Option PyFloat :=
  let t := stripWs s.data
  let core : List Char → Option PyFloat := fun cs =>
    match cs.splitOn '.' with
    | [a] => (digitsVal? a).map (fun n => PyFloat.ofInt (n : Int))
    | [a, b] =>
      match digitsVal? a, digitsVal? b with
      | some na, some nb => some (PyFloat.norm ((na : Int) * (10 ^ b.length : Nat) + (nb : Int)) (10 ^ b.length))
      | _, _ => none
    | _ => none
  match t with
  | '-' :: cs => (core cs).map (fun f => ⟨-f.num, f.den⟩)
  | '+' :: cs => core cs
  | cs => core cs

/-! ### Muscle-group dictionaries

The program keeps per-muscle totals in dicts initialised with exactly the 8
`MUSCLE_GROUPS` keys.  They are modelled as association lists; `dictGetD`
models `d.get(k, default)` and `dictModify` models `d[k] = f(d[k])` (on a
key that is absent Python would raise `KeyError`; every key the program uses
comes from `MUSCLE_GROUPS`, so the no-op behaviour of `dictModify` on a
missing key is never exercised). -/

def MUSCLE_GROUPS : List String :=
  ["Chest", "Back", "Shoulder", "Biceps", "Triceps", "Quad", "Hamstring", "Glutes"]

def dictGetD {β : Type} (d : List (String × β)) (k : String) (dflt : β) : β :=
  (d.lookup k).getD dflt

def dictModify {β : Type} (d : List (String × β)) (k : String) (f : β → β) :
    List (String × β) :=
  d.map (fun kv => if kv.1 = k then (kv.1, f kv.2) else kv)

/-- The dict comprehension `{mg: v for mg in MUSCLE_GROUPS}`. -/
def initDict {β : Type} (v : β) : List (String × β) :=
  MUSCLE_GROUPS.map (fun mg => (mg, v))

/-! ### Domain model (identical data classes in all three sources) -/

/-- One completed set (`SetDetail` in all three sources). -/
structure SetDetail where
  set_number : Int
  weight : PyFloat
  reps : Int
  rir : Int
deriving DecidableEq

/-- `SetDetail.volume`: `weight * reps`. -/
def SetDetail.volume (s : SetDetail) : PyFloat := s.weight.mulInt s.reps

/-- An exercise (`Exercise` in all three sources). -/
structure Exercise where
  name : String
  muscle_group : String
  sets : List SetDetail
deriving DecidableEq

/-- `Exercise.total_volume`: the sum of the volumes of its sets (Python's
`sum` starts from the int `0`, modelled by `PyFloat.zero`). -/
def Exercise.total_volume (e : Exercise) : PyFloat :=
  e.sets.foldl (fun acc s => acc.add s.volume) PyFloat.zero

/-- A routine (`Routine` in all three sources). -/
structure Routine where
  name : String
  exercises : List Exercise
deriving DecidableEq

/-- A per-exercise record inside an extended-variant session log; the
`timer_time` key may be absent in logs written by the other variants, hence
the `Option`. -/
structure ExRecord where
  name : String
  muscle_group : String
  sets : List SetDetail
  timer_time : Option String
deriving DecidableEq

/-- One stored session-log entry (a raw JSON dict in the sources).  Logs
written by the console and basic windowed variants have no `exercises` key;
reads go through `log.get("exercises", [])`, so the missing key is modelled
by the empty list. -/
structure LogRec where
  date : String
  routine_name : String
  muscle_volumes : List (String × PyFloat)
  sets_count : List (String × Int)
  exercises : List ExRecord
deriving DecidableEq

/-- Caffeine sub-record of a nutrition/rest record. -/
structure Caffeine where
  time_before_exercise : String
  mg : String
deriving DecidableEq

/-- One nutrition/rest record, with the exact fields `save_record` writes
(`caffeine` is `{}` — here `none` — unless the caffeine toggle is on). -/
structure NRRecord where
  date : String
  calories : String
  carbs : String
  protein : String
  fat : String
  fasting_weight : String
  sleep : String
  supplements : List (String × Bool)
  caffeine : Option Caffeine
deriving DecidableEq

/-! ### The previous-session scan (identical loop in all three sources)

`for l in logs[::-1]: if l["routine_name"] == routine_name and l["date"] <
current_date: previous_log = l; break`. -/

def find_previous_log (logs : List LogRec) (routine_name date : String) :
    Option LogRec :=
  logs.reverse.find? (fun l => l.routine_name == routine_name && pyStrLt l.date date)

/-- Result of the post-session comparison: either one report line per muscle
group (group, current volume, previous volume, difference), or the message
that no previous session exists. -/
inductive CompareResult where
  | report (entries : List (String × PyFloat × PyFloat × PyFloat))
  | noPrevious
deriving DecidableEq

/-! ### JSON output model (`json.dump`)

Only what the claims need is modelled: the string-escaping behaviour
(`ensure_ascii` on versus off) and the `indent=4` pretty layout.  Number
rendering is modelled for ints exactly; float rendering (`floatRepr`) is a
best-effort stand-in never relied on by any theorem. -/

inductive PyJson where
  | str (s : String)
  | int (n : Int)
  | float (q : PyFloat)
  | bool (b : Bool)
  | arr (xs : List PyJson)
  | obj (kvs : List (String × PyJson))

/-- Lowercase hex digit. -/
def hexDigit (n : Nat) : Char :=
  if n < 10 then Char.ofNat ('0'.toNat + n) else Char.ofNat ('a'.toNat + (n - 10))

/-- Four lowercase hex digits, as in Python's `\uXXXX` escapes. -/
def hex4 (n : Nat) : String :=
  String.mk [hexDigit (n / 4096 % 16), hexDigit (n / 256 % 16), hexDigit (n / 16 % 16), hexDigit (n % 16)]

def uEscape (n : Nat) : String := "\\u" ++ hex4 n

/-- The two-character escapes of Python's json encoder. -/
def escShort (c : Char) : Option String :=
  if c = '"' then some "\\\""
  else if c = '\\' then some "\\\\"
  else if c = '\x08' then some "\\b"
  else if c = '\x0c' then some "\\f"
  else if c = '\n' then some "\\n"
  else if c = '\r' then some "\\r"
  else if c = '\t' then some "\\t"
  else none

/-- Character encoding with `ensure_ascii=True` (the `json.dump` default):
everything outside `0x20..0x7e` becomes `\uXXXX` escapes (surrogate pairs
above the BMP). -/
def escapeCharAscii (c : Char) : String :=
  match escShort c with
  | some e => e
  | none =>
    if 0x20 ≤ c.toNat ∧ c.toNat < 0x7f then String.singleton c
    else if c.toNat < 0x10000 then uEscape c.toNat
    else uEscape (0xd800 + (c.toNat - 0x10000) / 0x400) ++ uEscape (0xdc00 + (c.toNat - 0x10000) % 0x400)

/-- Character encoding with `ensure_ascii=False`: only quotes, backslashes
and control characters are escaped; all other text is preserved as-is. -/
def escapeCharRaw (c : Char) : String :=
  match escShort c with
  | some e => e
  | none => if c.toNat < 0x20 then uEscape c.toNat else String.singleton c

/-- A JSON string literal as Python's encoder writes it. -/
def pyJsonString (ensure_ascii : Bool) (s : String) : String :=
  "\"" ++ String.join (s.data.map (fun c => if ensure_ascii then escapeCharAscii c else escapeCharRaw c)) ++ "\""

/-- Stand-in rendering for floats; see the section comment. -/
def floatRepr (q : PyFloat) : String :=
  if q.den = 1 then toString q.num ++ ".0" else toString q.num ++ "e" ++ toString q.den

def jsonPad (indent lvl : Nat) : String := String.mk (List.replicate (indent * lvl) ' ')

mutual
/-- `json.dump(v, f, indent=indent, ensure_ascii=ea)` at nesting level `lvl`. -/
def renderJson (ea : Bool) (indent lvl : Nat) : PyJson → String
  | .str s => pyJsonString ea s
  | .int n => toString n
  | .float q => floatRepr q
  | .bool b => if b then "true" else "false"
  | .arr [] => "[]"
  | .arr (x :: xs) =>
    "[\n" ++ renderArr ea indent (lvl + 1) (x :: xs) ++ "\n" ++ jsonPad indent lvl ++ "]"
  | .obj [] => "\x7b\x7d"
  | .obj (kv :: kvs) =>
    "\x7b\n" ++ renderObj ea indent (lvl + 1) (kv :: kvs) ++ "\n" ++ jsonPad indent lvl ++ "\x7d"

def renderArr (ea : Bool) (indent lvl : Nat) : List PyJson → String
  | [] => ""
  | [x] => jsonPad indent lvl ++ renderJson ea indent lvl x
  | x :: y :: xs =>
    jsonPad indent lvl ++ renderJson ea indent lvl x ++ ",\n" ++ renderArr ea indent lvl (y :: xs)

def renderObj (ea : Bool) (indent lvl : Nat) : List (String × PyJson) → String
  | [] => ""
  | [kv] => jsonPad indent lvl ++ pyJsonString ea kv.1 ++ ": " ++ renderJson ea indent lvl kv.2
  | kv :: kv2 :: kvs =>
    jsonPad indent lvl ++ pyJsonString ea kv.1 ++ ": " ++ renderJson ea indent lvl kv.2 ++ ",\n" ++
      renderObj ea indent lvl (kv2 :: kvs)
end

/-- Top-level `json.dump` text. -/
def pyJsonDumps (indent : Nat) (ensure_ascii : Bool) (v : PyJson) : String :=
  renderJson ensure_ascii indent 0 v

/-! ### Serialisation of the data classes (identical `to_dict` methods) -/

def SetDetail.to_dict (s : SetDetail) : PyJson :=
  .obj [("set_number", .int s.set_number), ("weight", .float s.weight),
        ("reps", .int s.reps), ("rir", .int s.rir)]

def Exercise.to_dict (e : Exercise) : PyJson :=
  .obj [("name", .str e.name), ("muscle_group", .str e.muscle_group),
        ("sets", .arr (e.sets.map SetDetail.to_dict))]

def Routine.to_dict (r : Routine) : PyJson :=
  .obj [("name", .str r.name), ("exercises", .arr (r.exercises.map Exercise.to_dict))]

/-! ### Parsed file shapes for loading

`json.load` results are modelled as already-parsed records; a key that may
be missing from a hand-written or older file is an `Option` field.  (A file
whose text does not parse as JSON at all is outside every claim below.) -/

structure SetDict where
  set_number : Int
  weight : PyFloat
  reps : Int
  rir : Int
deriving DecidableEq

structure ExerciseDict where
  name : String
  muscle_group : Option String
  sets : Option (List SetDict)
deriving DecidableEq

structure RoutineDict where
  name : String
  exercises : List ExerciseDict
deriving DecidableEq

def SetDict.toSet (d : SetDict) : SetDetail := ⟨d.set_number, d.weight, d.reps, d.rir⟩

/-! ## Console variant (`workout_optimization.py`) -/

namespace Console

/-- Result of a console interaction: the produced value plus the unread part
of the input stream, or a crash of the whole program (an uncaught
`ValueError` / `IndexError` / end-of-input `EOFError`). -/
inductive CResult (α : Type) where
  | ok (a : α) (rest : List String)
  | crash
deriving DecidableEq

/-- Python list indexing, including negative indices. -/
def pyIndex {α : Type} (l : List α) (i : Int) : Option α :=
  if i < 0 then
    if i + (l.length : Int) < 0 then none else l.get? (i + (l.length : Int)).toNat
  else l.get? i.toNat

/-- Console `Routine.from_dict`: `ex_data["muscle_group"]` and
`ex_data["sets"]` are mandatory here (a missing key raises `KeyError`,
modelled by `none`) — the windowed variants default them instead. -/
def Routine.from_dict (d : RoutineDict) : Option Routine := do
  let exs ← d.exercises.mapM (fun ed =>
    match ed.muscle_group, ed.sets with
    | some mg, some sds => some (⟨ed.name, mg, sds.map SetDict.toSet⟩ : Exercise)
    | _, _ => none)
  pure ⟨d.name, exs⟩

/-- `load_routines`: absent file → empty list; otherwise parse every stored
dict (`none` = a `KeyError` escaping the load). -/
def load_routines (file : Option (List RoutineDict)) : Option (List Routine) :=
  match file with
  | none => some []
  | some data => data.mapM Routine.from_dict

/-- `load_workout_logs`: absent file → empty list. -/
def load_workout_logs (file : Option (List LogRec)) : List LogRec :=
  match file with
  | none => []
  | some logs => logs

/-- `save_workout_log`: read-modify-write append. -/
def save_workout_log (logs : List LogRec) (log : LogRec) : List LogRec := logs ++ [log]

/-- Console `Routine.total_volume_by_muscle`. -/
def total_volume_by_muscle (r : Routine) : List (String × PyFloat) :=
  r.exercises.foldl (fun d ex => dictModify d ex.muscle_group (fun v => v.add ex.total_volume))
    (initDict PyFloat.zero)

/-- The optional between-set timer dialogue (`다음 세트 전 타이머 실행할까요?`):
reads the y/n answer and, on `y`, the seconds — `int(input(...))` crashes on
non-numeric input.  `start_timer` itself only prints and sleeps. -/
def timer_between_sets (inputs : List String) : CResult Unit :=
  match inputs with
  | [] => .crash
  | choice :: rest =>
    if pyLower choice = "y" then
      match rest with
      | [] => .crash
      | secs :: rest2 =>
        match pyInt? secs with
        | some _ => .ok () rest2
        | none => .crash
    else .ok () rest

/-- The `for i in range(num_sets)` body of `create_exercise`: read weight /
reps / rir (each raising on non-numeric input), and offer the timer after
every non-final set.  `total` is `num_sets`, `k` counts sets still to read. -/
def set_loop (total : Nat) : Nat → List SetDetail → List String → CResult (List SetDetail)
  | 0, sets, inputs => .ok sets inputs
  | k + 1, sets, inputs =>
    match inputs with
    | w :: r :: i :: rest =>
      match pyFloat? w, pyInt? r, pyInt? i with
      | some weight, some reps, some rir =>
        let idx := total - (k + 1)
        let sets2 := sets ++ [⟨(idx : Int) + 1, weight, reps, rir⟩]
        if idx < total - 1 then
          match timer_between_sets rest with
          | .ok _ rest2 => set_loop total k sets2 rest2
          | .crash => .crash
        else set_loop total k sets2 rest
      | _, _, _ => .crash
    | _ => .crash

/-- `create_exercise`: name, muscle-group number (unguarded `int(...)` and
list indexing), set count (unguarded `int(...)`), then the per-set reads. -/
def create_exercise (inputs : List String) : CResult Exercise :=
  match inputs with
  | ex_name :: mg_line :: rest =>
    (match pyInt? mg_line with
     | none => .crash
     | some n =>
       match pyIndex MUSCLE_GROUPS (n - 1) with
       | none => .crash
       | some muscle_group =>
         match rest with
         | [] => .crash
         | ns_line :: rest2 =>
           match pyInt? ns_line with
           | none => .crash
           | some ns =>
             match set_loop ns.toNat ns.toNat [] rest2 with
             | .ok sets rest3 => .ok ⟨ex_name, muscle_group, sets⟩ rest3
             | .crash => .crash)
  | _ => .crash

/-- The `while True` add-an-exercise loop of `create_new_routine`.  Every
iteration consumes at least one input line, so `fuel = inputs.length + 1`
can never be exhausted; running out of fuel therefore coincides with running
out of input, which is a crash (`EOFError`) in Python too. -/
def create_new_routine_loop : Nat → Routine → List String → CResult Routine
  | 0, _, _ => .crash
  | fuel + 1, routine, inputs =>
    match inputs with
    | [] => .crash
    | add_ex :: rest =>
      if pyLower add_ex = "y" then
        match create_exercise rest with
        | .ok ex rest2 =>
          create_new_routine_loop fuel { routine with exercises := routine.exercises ++ [ex] } rest2
        | .crash => .crash
      else .ok routine rest

/-- `create_new_routine`: read the name (no blank check!), then the loop. -/
def create_new_routine (inputs : List String) : CResult Routine :=
  match inputs with
  | [] => .crash
  | name :: rest => create_new_routine_loop (rest.length + 1) ⟨name, []⟩ rest

/-- Replay of one exercise's stored sets during `start_workout_session`:
counts each set and offers the timer after every set whose `set_number` is
below the number of sets. -/
def replay_sets (mg : String) (total : Nat) :
    List SetDetail → List (String × Int) → List String →
    CResult (List (String × Int))
  | [], counts, inputs => .ok counts inputs
  | s :: ss, counts, inputs =>
    let counts2 := dictModify counts mg (fun c => c + 1)
    if s.set_number < (total : Int) then
      match timer_between_sets inputs with
      | .ok _ rest => replay_sets mg total ss counts2 rest
      | .crash => .crash
    else replay_sets mg total ss counts2 inputs

/-- The exercise loop of `start_workout_session`. -/
def session_exercises :
    List Exercise → List (String × Int) → List String → CResult (List (String × Int))
  | [], counts, inputs => .ok counts inputs
  | ex :: exs, counts, inputs =>
    match replay_sets ex.muscle_group ex.sets.length ex.sets counts inputs with
    | .ok counts2 rest => session_exercises exs counts2 rest
    | .crash => .crash

/-- `start_workout_session`: replay the routine's stored sets, then build
and append the session log dated `today`. -/
def start_workout_session (today : String) (routine : Routine) (logs : List LogRec)
    (inputs : List String) : CResult (List LogRec × LogRec) :=
  match session_exercises routine.exercises (initDict (0 : Int)) inputs with
  | .ok counts rest =>
    let log : LogRec :=
      ⟨today, routine.name, total_volume_by_muscle routine, counts, []⟩
    .ok (save_workout_log logs log, log) rest
  | .crash => .crash

/-- Console `compare_with_previous`: reverse-storage-order scan, then one
report line per muscle group (no group is skipped in this variant). -/
def compare_with_previous (logs : List LogRec) (log : LogRec) : CompareResult :=
  match find_previous_log logs log.routine_name log.date with
  | some prev =>
    .report (MUSCLE_GROUPS.map (fun mg =>
      let current := dictGetD log.muscle_volumes mg PyFloat.zero
      let p := dictGetD prev.muscle_volumes mg PyFloat.zero
      (mg, current, p, current.sub p)))
  | none => .noPrevious

/-- In-memory state of the console `main` loop: the routine list (kept in
sync with `routines.json`) and the stored session logs. -/
structure MainState where
  routines : List Routine
  logs : List LogRec
deriving DecidableEq

/-- Outcome of one iteration of the `while True` menu loop.  `msg` is the
error/confirmation line the iteration prints (informational listings are
not modelled); `cont` re-displays the menu with the remaining input. -/
inductive StepRes where
  | cont (msg : Option String) (st : MainState) (rest : List String)
  | exit (st : MainState) (rest : List String)
  | crash
deriving DecidableEq

/-- One iteration of the console `main` menu loop (`today` is the current
date used when a session is recorded).  The comparison printed after a
session and the weekly summary (menu 4) only print; their text is not part
of the state. -/
def main_step (today : String) (st : MainState) (inputs : List String) : StepRes :=
  match inputs with
  | [] => .crash
  | choice :: rest =>
    if choice = "1" then
      match create_new_routine rest with
      | .ok r rest2 => .cont (some "루틴이 저장되었습니다.") ⟨st.routines ++ [r], st.logs⟩ rest2
      | .crash => .crash
    else if choice = "2" then
      .cont (if st.routines.isEmpty then some "저장된 루틴이 없습니다." else none) st rest
    else if choice = "3" then
      if st.routines.isEmpty then .cont (some "먼저 루틴을 생성하세요.") st rest
      else
        match rest with
        | [] => .crash
        | num :: rest2 =>
          match pyInt? num with
          | none => .cont (some "숫자를 입력하세요.") st rest2
          | some n =>
            if n - 1 < 0 ∨ (st.routines.length : Int) ≤ n - 1 then
              .cont (some "잘못된 선택입니다.") st rest2
            else
              match st.routines.get? (n - 1).toNat with
              | none => .crash
              | some routine =>
                match start_workout_session today routine st.logs rest2 with
                | .ok (logs2, _log) rest3 => .cont none ⟨st.routines, logs2⟩ rest3
                | .crash => .crash
    else if choice = "4" then .cont none st rest
    else if choice = "5" then .exit st rest
    else .cont (some "잘못된 입력입니다. 다시 시도하세요.") st rest

/-- Console `save_routines`: `json.dump([...], f, indent=4)` — note the
`ensure_ascii` default `True`. -/
def save_routines (routines : List Routine) : String :=
  pyJsonDumps 4 true (.arr (routines.map Routine.to_dict))

end Console

/-! ### Stable sort by a string key

Model of Python's stable `list.sort(key=...)` for string keys: a left fold
of sorted insertions, each insertion placing the new element after every
element whose key is not strictly greater — exactly the stable ascending
order `list.sort` produces. -/

def insertSorted {α : Type} (key : α → String) (x : α) : List α → List α
  | [] => [x]
  | y :: ys => if pyStrLt (key x) (key y) then x :: y :: ys else y :: insertSorted key x ys

def sortByKey {α : Type} (key : α → String) (l : List α) : List α :=
  l.foldl (fun acc x => insertSorted key x acc) []

/-! ## Basic windowed variant (`workout_op_gui.py`) -/

namespace Gui

/-- Windowed `Exercise.from_dict`: `muscle_group` defaults to `""` and
`sets` to `[]` when the keys are absent. -/
def Exercise.from_dict (d : ExerciseDict) : Exercise :=
  ⟨d.name, d.muscle_group.getD "", (d.sets.getD []).map SetDict.toSet⟩

def Routine.from_dict (d : RoutineDict) : Routine :=
  ⟨d.name, d.exercises.map Exercise.from_dict⟩

/-- `load_routines`: absent file → empty list. -/
def load_routines (file : Option (List RoutineDict)) : List Routine :=
  match file with
  | none => []
  | some data => data.map Routine.from_dict

/-- `load_workout_logs`: absent file → empty list. -/
def load_workout_logs (file : Option (List LogRec)) : List LogRec :=
  match file with
  | none => []
  | some logs => logs

def save_workout_log (logs : List LogRec) (log : LogRec) : List LogRec := logs ++ [log]

/-- `save_routines` with `ensure_ascii=False`, `indent=4`. -/
def save_routines (routines : List Routine) : String :=
  pyJsonDumps 4 false (.arr (routines.map Routine.to_dict))

/-- `CreateRoutineWindow.save_routine`: blank (stripped) name or an empty
exercise list shows an error dialog and changes nothing; otherwise the new
routine is appended to the loaded collection and persisted.  The result is
the stored collection after the attempt plus the error dialog, if any. -/
def save_routine (stored : List Routine) (name_entry : String) (exercises : List Exercise) :
    List Routine × Option String :=
  let name := pyStrip name_entry
  if name = "" then (stored, some "루틴 이름을 입력하세요.")
  else if exercises.isEmpty then (stored, some "운동을 최소 한 개 이상 추가하세요.")
  else (stored ++ [⟨name, exercises⟩], none)

/-- `WorkoutSessionWindow.add_set` of the basic variant: parse
`(float, int, int)`; on failure show an error dialog and change nothing;
on success append the set and bump the current exercise's muscle-group
volume and set count.  The state is `(current_exercise_sets, session_log)`. -/
def add_set (routine : Routine) (idx : Nat) (sets : List SetDetail) (log : LogRec)
    (w r i : String) : (List SetDetail × LogRec) × Option String :=
  match pyFloat? w, pyInt? r, pyInt? i with
  | some weight, some reps, some rir =>
    match routine.exercises.get? idx with
    | some ex =>
      let set_number : Int := (sets.length : Int) + 1
      let sets2 := sets ++ [⟨set_number, weight, reps, rir⟩]
      let log2 := { log with
        muscle_volumes := dictModify log.muscle_volumes ex.muscle_group
          (fun v => v.add (weight.mulInt reps)),
        sets_count := dictModify log.sets_count ex.muscle_group (fun c => c + 1) }
      ((sets2, log2), none)
    | none => ((sets, log), none)
  | _, _, _ => ((sets, log), some "올바른 숫자를 입력하세요.")

/-- Basic-variant `compare_with_previous` — identical to the console one
(every muscle group is reported). -/
def compare_with_previous (logs : List LogRec) (log : LogRec) : CompareResult :=
  match find_previous_log logs log.routine_name log.date with
  | some prev =>
    .report (MUSCLE_GROUPS.map (fun mg =>
      let current := dictGetD log.muscle_volumes mg PyFloat.zero
      let p := dictGetD prev.muscle_volumes mg PyFloat.zero
      (mg, current, p, current.sub p)))
  | none => .noPrevious

end Gui

/-! ## Extended windowed variant (`workout_app.py`) -/

namespace App

def Exercise.from_dict (d : ExerciseDict) : Exercise :=
  ⟨d.name, d.muscle_group.getD "", (d.sets.getD []).map SetDict.toSet⟩

def Routine.from_dict (d : RoutineDict) : Routine :=
  ⟨d.name, d.exercises.map Exercise.from_dict⟩

/-- `load_routines`: absent file → empty list. -/
def load_routines (file : Option (List RoutineDict)) : List Routine :=
  match file with
  | none => []
  | some data => data.map Routine.from_dict

/-- `load_workout_logs`: absent file → empty list. -/
def load_workout_logs (file : Option (List LogRec)) : List LogRec :=
  match file with
  | none => []
  | some logs => logs

/-- `load_nutrition_rest_logs`: absent file → empty list. -/
def load_nutrition_rest_logs (file : Option (List NRRecord)) : List NRRecord :=
  match file with
  | none => []
  | some recs => recs

/-- `load_supplements`: absent file → empty list. -/
def load_supplements (file : Option (List String)) : List String :=
  match file with
  | none => []
  | some sups => sups

def save_workout_log (logs : List LogRec) (log : LogRec) : List LogRec := logs ++ [log]

/-- `save_nutrition_rest_log`: drop every stored record with the same date,
then append the new record (upsert). -/
def save_nutrition_rest_log (records : List NRRecord) (record : NRRecord) : List NRRecord :=
  (records.filter (fun rec => rec.date != record.date)) ++ [record]

/-- `save_routines` with `ensure_ascii=False`, `indent=4`. -/
def save_routines (routines : List Routine) : String :=
  pyJsonDumps 4 false (.arr (routines.map Routine.to_dict))

/-- `save_supplements` with `ensure_ascii=False`, `indent=4`. -/
def save_supplements (sup_list : List String) : String :=
  pyJsonDumps 4 false (.arr (sup_list.map PyJson.str))

/-- `CreateRoutineWindow.save_routine` — same validation as the basic
variant. -/
def save_routine (stored : List Routine) (name_entry : String) (exercises : List Exercise) :
    List Routine × Option String :=
  let name := pyStrip name_entry
  if name = "" then (stored, some "루틴 이름을 입력하세요.")
  else if exercises.isEmpty then (stored, some "운동을 최소 한 개 이상 추가하세요.")
  else (stored ++ [⟨name, exercises⟩], none)

/-- `WorkoutSessionWindow.get_timer_time`: `int(entry)`, silently falling
back to `60` on a `ValueError`. -/
def get_timer_time (entry : String) : Int :=
  match pyInt? entry with
  | some t => t
  | none => 60

/-- `run_timer(seconds)`: a `TimerWindow` counting down from `seconds` opens
whenever `seconds` is truthy (non-zero); the result records the countdown
that was started, `none` when no window opened. -/
def run_timer (seconds : Int) : Option Int :=
  if seconds ≠ 0 then some seconds else none

/-- The `타이머 실행` button: `run_timer(get_timer_time())`. -/
def manual_timer_button (timer_entry : String) : Option Int :=
  run_timer (get_timer_time timer_entry)

/-- The inner scan of `get_previous_timer_time`: the first exercise record
with the wanted name that carries a `timer_time` key (a matching name
without the key does not stop the scan). -/
def timer_of_exercise (exs : List ExRecord) (exercise_name : String) : Option String :=
  exs.findSome? (fun ex => if ex.name == exercise_name then ex.timer_time else none)

/-- `WorkoutSessionWindow.get_previous_timer_time`: walk the stored logs in
reverse storage order; the first log of the *same routine* with an earlier
date that contains a `timer_time` for this exercise name supplies the
default; otherwise the literal `"60"`.  (The Python nested loops `return`
from inside the inner scan and otherwise keep walking outward, which is
exactly a search for the first log satisfying the combined test.) -/
def get_previous_timer_time (logs : List LogRec) (routine_name session_date exercise_name : String) :
    String :=
  match logs.reverse.find? (fun log =>
      log.routine_name == routine_name && pyStrLt log.date session_date &&
        (timer_of_exercise log.exercises exercise_name).isSome) with
  | some log => (timer_of_exercise log.exercises exercise_name).getD "60"
  | none => "60"

/-- Live state of a `WorkoutSessionWindow`. -/
structure SessionState where
  current_exercise_index : Nat
  current_exercise_sets : List SetDetail
  exercise_timer_entry : String
  session_log : LogRec
deriving DecidableEq

/-- Window construction: the accumulator starts with every muscle group at
zero, and `display_current_exercise` pre-fills the timer entry for the first
exercise (an empty routine would finish immediately; the timer entry is then
never shown). -/
def init_state (logs : List LogRec) (routine : Routine) (session_date : String) : SessionState :=
  { current_exercise_index := 0
    current_exercise_sets := []
    exercise_timer_entry :=
      match routine.exercises.get? 0 with
      | some ex => get_previous_timer_time logs routine.name session_date ex.name
      | none => ""
    session_log :=
      { date := session_date, routine_name := routine.name,
        muscle_volumes := initDict PyFloat.zero, sets_count := initDict (0 : Int),
        exercises := [] } }

/-- `WorkoutSessionWindow.add_set`: parse `(float, int, int)`; on failure
show the error dialog and change nothing; on success append the set, bump
the accumulator, and start the per-exercise timer
(`run_timer(get_timer_time())`). -/
def add_set (routine : Routine) (st : SessionState) (w r i : String) :
    SessionState × Option String :=
  match pyFloat? w, pyInt? r, pyInt? i with
  | some weight, some reps, some rir =>
    match routine.exercises.get? st.current_exercise_index with
    | some ex =>
      let set_number : Int := (st.current_exercise_sets.length : Int) + 1
      let log := st.session_log
      ({ st with
          current_exercise_sets := st.current_exercise_sets ++ [⟨set_number, weight, reps, rir⟩],
          session_log := { log with
            muscle_volumes := dictModify log.muscle_volumes ex.muscle_group
              (fun v => v.add (weight.mulInt reps)),
            sets_count := dictModify log.sets_count ex.muscle_group (fun c => c + 1) } }, none)
    | none => (st, none)
  | _, _, _ => (st, some "올바른 숫자를 입력하세요.")

/-- The session log after the `다음 운동` click records the current
exercise: a non-empty set list is appended to the log's `exercises`,
snapshotting the timer entry text as `timer_time` (the local `log` variable
of `next_exercise` in the source). -/
def next_log (routine : Routine) (st : SessionState) : LogRec :=
  if st.current_exercise_sets.isEmpty then st.session_log
  else
    match routine.exercises.get? st.current_exercise_index with
    | some ex =>
      { st.session_log with
        exercises := st.session_log.exercises ++
          [⟨ex.name, ex.muscle_group, st.current_exercise_sets, some st.exercise_timer_entry⟩] }
    | none => st.session_log

/-- `WorkoutSessionWindow.next_exercise`.  With no sets entered, advancing
needs the yes/no confirmation (`confirm = false` leaves everything as it
is).  Otherwise: the current exercise is recorded into the log via
`next_log`, the index advances, and `display_current_exercise` resets the
set list and pre-fills the next exercise's timer entry. -/
def next_exercise (logs : List LogRec) (routine : Routine) (st : SessionState)
    (confirm : Bool) : SessionState :=
  if st.current_exercise_sets.isEmpty ∧ ¬confirm then st
  else
    match routine.exercises.get? (st.current_exercise_index + 1) with
    | some nex =>
      { current_exercise_index := st.current_exercise_index + 1
        current_exercise_sets := []
        exercise_timer_entry :=
          get_previous_timer_time logs routine.name st.session_log.date nex.name
        session_log := next_log routine st }
    | none =>
      { st with current_exercise_index := st.current_exercise_index + 1,
                session_log := next_log routine st }

/-- Extended-variant `compare_with_previous`: reverse-storage-order scan;
the report skips every muscle group whose *current* volume is exactly
zero. -/
def compare_with_previous (logs : List LogRec) (log : LogRec) : CompareResult :=
  match find_previous_log logs log.routine_name log.date with
  | some prev =>
    .report ((MUSCLE_GROUPS.filter
        (fun mg => dictGetD log.muscle_volumes mg PyFloat.zero ≠ PyFloat.zero)).map (fun mg =>
      let current := dictGetD log.muscle_volumes mg PyFloat.zero
      let p := dictGetD prev.muscle_volumes mg PyFloat.zero
      (mg, current, p, current.sub p)))
  | none => .noPrevious

/-- `finish_session`: append the finished log to the stored collection and
run the comparison against the collection as stored after the append. -/
def finish_session (logs : List LogRec) (st : SessionState) :
    List LogRec × CompareResult :=
  let logs2 := save_workout_log logs st.session_log
  (logs2, compare_with_previous logs2 st.session_log)

/-- The actions a user performs on one exercise of a session, in order: the
`세트 추가` clicks (each with the three entry texts), an optional final edit
of the timer entry, then the `다음 운동` click (confirming the skip dialog if
no set was entered). -/
structure ExPhase where
  adds : List (String × String × String)
  timer_edit : Option String
deriving DecidableEq

/-- Fold the `add_set` clicks of one phase. -/
def apply_adds (routine : Routine) (st : SessionState)
    (adds : List (String × String × String)) : SessionState :=
  adds.foldl (fun s t => (add_set routine s t.1 t.2.1 t.2.2).1) st

/-- One exercise phase: the adds, the optional timer-entry edit, then
`next_exercise` (with the skip confirmed when it asks). -/
def run_phase (logs : List LogRec) (routine : Routine) (st : SessionState)
    (ph : ExPhase) : SessionState :=
  let st1 := apply_adds routine st ph.adds
  let st2 :=
    match ph.timer_edit with
    | some t => { st1 with exercise_timer_entry := t }
    | none => st1
  next_exercise logs routine st2 true

def run_phases (logs : List LogRec) (routine : Routine) :
    SessionState → List ExPhase → SessionState
  | st, [] => st
  | st, ph :: rest => run_phases logs routine (run_phase logs routine st ph) rest

/-- A whole session: open the window on `routine` and `session_date` with
`logs` stored, then work through the phases. -/
def run_session (logs : List LogRec) (routine : Routine) (session_date : String)
    (phases : List ExPhase) : SessionState :=
  run_phases logs routine (init_state logs routine session_date) phases

/-- `WorkoutRecordsFrame.plot_muscle_data`: collect `(date, sets, volume)`
for every log with non-zero volume for the muscle, sort ascending by date
(Python's stable `list.sort(key=...)`), keep the last 10 (`data[-10:]`), and
show an informational message (`none`) when nothing qualifies. -/
def plot_muscle_data (logs : List LogRec) (muscle : String) :
    Option (List (String × Int × PyFloat)) :=
  let data := logs.filterMap (fun log =>
    let vol := dictGetD log.muscle_volumes muscle PyFloat.zero
    if vol = PyFloat.zero then none
    else some (log.date, dictGetD log.sets_count muscle (0 : Int), vol))
  let sorted := sortByKey (fun x => x.1) data
  let clipped := sorted.drop (sorted.length - 10)
  if clipped.isEmpty then none else some clipped

end App

/-! ## Helper lemmas -/

theorem strLtList_irrefl : ∀ a : List Char, strLtList a a = false := by
  intro a
  induction a with
  | nil => rfl
  | cons x xs ih => simp [strLtList, ih]

theorem pyStrLt_irrefl (s : String) : pyStrLt s s = false := strLtList_irrefl s.data

theorem strLtList_asymm : ∀ {a b : List Char}, strLtList a b = true → strLtList b a = false := by
  intro a
  induction a with
  | nil =>
    intro b h
    cases b <;> simp [strLtList] at h ⊢
  | cons x xs ih =>
    intro b h
    cases b with
    | nil => simp [strLtList] at h
    | cons y ys =>
      simp [strLtList] at h ⊢
      rcases h with h | ⟨he, h⟩
      · exact ⟨by omega, fun hyx => by omega⟩
      · exact ⟨by omega, fun _ => ih h⟩

theorem strLtList_trans :
    ∀ {a b c : List Char}, strLtList a b = true → strLtList b c = true → strLtList a c = true := by
  intro a
  induction a with
  | nil =>
    intro b c hab hbc
    cases b with
    | nil => simp [strLtList] at hab
    | cons y ys =>
      cases c with
      | nil => simp [strLtList] at hbc
      | cons z zs => simp [strLtList]
  | cons x xs ih =>
    intro b c hab hbc
    cases b with
    | nil => simp [strLtList] at hab
    | cons y ys =>
      cases c with
      | nil => simp [strLtList] at hbc
      | cons z zs =>
        simp [strLtList] at hab hbc ⊢
        rcases hab with hab | ⟨he1, hab⟩
        · rcases hbc with hbc | ⟨he2, hbc⟩
          · exact Or.inl (by omega)
          · exact Or.inl (by omega)
        · rcases hbc with hbc | ⟨he2, hbc⟩
          · exact Or.inl (by omega)
          · exact Or.inr ⟨by omega, ih hab hbc⟩

theorem pyStrLt_asymm {a b : String} (h : pyStrLt a b = true) : pyStrLt b a = false :=
  strLtList_asymm h

theorem pyStrLt_trans {a b c : String} (h1 : pyStrLt a b = true) (h2 : pyStrLt b c = true) :
    pyStrLt a c = true := strLtList_trans h1 h2

/-- First-match characterisation of `List.find?`. -/
theorem find?_eq_some_decomp {α : Type} {p : α → Bool} {l : List α} {x : α} :
    l.find? p = some x ↔
      p x = true ∧ ∃ pre post, l = pre ++ x :: post ∧ ∀ y ∈ pre, p y = false := by
  induction l with
  | nil => simp
  | cons a t ih =>
    by_cases hpa : p a = true
    · rw [List.find?_cons_of_pos t hpa]
      constructor
      · rintro h
        injection h with h
        subst h
        exact ⟨hpa, [], t, rfl, by simp⟩
      · rintro ⟨hx, pre, post, heq, hpre⟩
        cases pre with
        | nil =>
          injection heq with h1 h2
          rw [h1]
        | cons b pre2 =>
          injection heq with h1 h2
          subst h1
          have := hpre a (by simp)
          rw [this] at hpa
          cases hpa
    · rw [List.find?_cons_of_neg t (by simp [hpa])]
      rw [ih]
      constructor
      · rintro ⟨hx, pre, post, heq, hpre⟩
        refine ⟨hx, a :: pre, post, by rw [heq]; rfl, ?_⟩
        intro y hy
        rcases List.mem_cons.mp hy with rfl | hy2
        · exact Bool.eq_false_iff.mpr hpa
        · exact hpre y hy2
      · rintro ⟨hx, pre, post, heq, hpre⟩
        cases pre with
        | nil =>
          injection heq with h1 h2
          subst h1
          exact absurd hx hpa
        | cons b pre2 =>
          injection heq with h1 h2
          subst h1
          exact ⟨hx, pre2, post, h2, fun y hy => hpre y (by simp [hy])⟩

/-- First-match-in-reverse characterisation: the found element is the last
element of `l` (in storage order) satisfying `p`. -/
theorem find?_reverse_eq_some {α : Type} {p : α → Bool} {l : List α} {x : α} :
    l.reverse.find? p = some x ↔
      p x = true ∧ ∃ pre post, l = pre ++ x :: post ∧ ∀ y ∈ post, p y = false := by
  rw [find?_eq_some_decomp]
  constructor
  · rintro ⟨hx, pre, post, heq, hpre⟩
    refine ⟨hx, post.reverse, pre.reverse, ?_, ?_⟩
    · have h2 := congrArg List.reverse heq
      simpa [List.reverse_append] using h2
    · intro y hy
      exact hpre y (by simpa using hy)
  · rintro ⟨hx, pre, post, heq, hpost⟩
    refine ⟨hx, post.reverse, pre.reverse, ?_, ?_⟩
    · rw [heq]
      simp [List.reverse_append]
    · intro y hy
      exact hpost y (by simpa using hy)

theorem find?_reverse_eq_none {α : Type} {p : α → Bool} {l : List α} :
    l.reverse.find? p = none ↔ ∀ x ∈ l, p x = false := by
  rw [List.find?_eq_none]
  constructor
  · intro h x hx
    exact Bool.eq_false_iff.mpr (h x (by simpa using hx))
  · intro h x hx
    rw [h x (by simpa using hx)]
    simp

theorem mem_insertSorted {α : Type} (key : α → String) (x a : α) (l : List α) :
    a ∈ insertSorted key x l ↔ a = x ∨ a ∈ l := by
  induction l with
  | nil => simp [insertSorted]
  | cons y ys ih =>
    by_cases h : pyStrLt (key x) (key y) = true
    · simp [insertSorted, h]
    · simp [insertSorted, h, ih]
      tauto

theorem mem_sortByKey {α : Type} (key : α → String) (l : List α) (a : α) :
    a ∈ sortByKey key l ↔ a ∈ l := by
  suffices h : ∀ acc, a ∈ l.foldl (fun acc x => insertSorted key x acc) acc ↔ a ∈ acc ∨ a ∈ l by
    simpa using h []
  induction l with
  | nil => simp
  | cons x xs ih =>
    intro acc
    rw [List.foldl_cons, ih]
    rw [mem_insertSorted]
    simp only [List.mem_cons]
    tauto

/-- Ascending (non-strict) order on keys, as produced by the sort. -/
def keyLe {α : Type} (key : α → String) (a b : α) : Prop := pyStrLt (key b) (key a) = false

theorem pairwise_insertSorted {α : Type} (key : α → String) (x : α) (l : List α)
    (h : l.Pairwise (keyLe key)) :
    (insertSorted key x l).Pairwise (keyLe key) := by
  induction l with
  | nil => simp [insertSorted, List.pairwise_cons]
  | cons y ys ih =>
    rcases List.pairwise_cons.mp h with ⟨hy, hys⟩
    by_cases hxy : pyStrLt (key x) (key y) = true
    · rw [insertSorted, if_pos hxy]
      refine List.pairwise_cons.mpr ⟨?_, h⟩
      intro z hz
      rcases List.mem_cons.mp hz with rfl | hz2
      · exact pyStrLt_asymm hxy
      · by_contra hcon
        have h1 : pyStrLt (key z) (key x) = true := by
          simpa [keyLe] using hcon
        have h2 := pyStrLt_trans h1 hxy
        have h3 := hy z hz2
        rw [keyLe] at h3
        rw [h3] at h2
        cases h2
    · rw [insertSorted, if_neg hxy]
      refine List.pairwise_cons.mpr ⟨?_, ih hys⟩
      intro z hz
      rcases (mem_insertSorted key x z ys).mp hz with rfl | hz2
      · exact Bool.eq_false_iff.mpr hxy
      · exact hy z hz2

theorem pairwise_sortByKey {α : Type} (key : α → String) (l : List α) :
    (sortByKey key l).Pairwise (keyLe key) := by
  suffices h : ∀ acc, acc.Pairwise (keyLe key) →
      (l.foldl (fun acc x => insertSorted key x acc) acc).Pairwise (keyLe key) by
    exact h [] (by simp)
  induction l with
  | nil => intro acc hacc; simpa using hacc
  | cons x xs ih =>
    intro acc hacc
    rw [List.foldl_cons]
    exact ih _ (pairwise_insertSorted key x acc hacc)

theorem length_insertSorted {α : Type} (key : α → String) (x : α) (l : List α) :
    (insertSorted key x l).length = l.length + 1 := by
  induction l with
  | nil => rfl
  | cons y ys ih =>
    by_cases h : pyStrLt (key x) (key y) = true <;> simp [insertSorted, h, ih]

theorem length_sortByKey {α : Type} (key : α → String) (l : List α) :
    (sortByKey key l).length = l.length := by
  suffices h : ∀ acc, (l.foldl (fun acc x => insertSorted key x acc) acc).length =
      acc.length + l.length by
    simpa using h []
  induction l with
  | nil => simp
  | cons x xs ih =>
    intro acc
    rw [List.foldl_cons, ih, length_insertSorted]
    simp only [List.length_cons]
    omega

/-! ## Claims -/

/-- C2: upserting a nutrition/rest record for date `D` yields a stored
collection with exactly one record dated `D` — the newly saved record —
while every record of a different date is preserved unchanged. -/
theorem claim_C2_nutrition_upsert (records : List NRRecord) (record : NRRecord) :
    (App.save_nutrition_rest_log records record).filter
        (fun r => r.date == record.date) = [record] ∧
    ((App.save_nutrition_rest_log records record).filter
        (fun r => r.date == record.date)).length = 1 ∧
    (App.save_nutrition_rest_log records record).filter (fun r => r.date != record.date) =
      records.filter (fun r => r.date != record.date) := by
  refine ⟨?_, ?_, ?_⟩
  · simp [App.save_nutrition_rest_log, List.filter_append, List.filter_filter]
  · simp [App.save_nutrition_rest_log, List.filter_append, List.filter_filter]
  · simp [App.save_nutrition_rest_log, List.filter_append, List.filter_filter]

/-- C3: for each of the four collections and in every variant, loading from
a non-existent backing file returns the empty collection and raises no
error (for the console loader, whose deserialisation can fail on partial
dicts, the result is `some []`: no crash). -/
theorem claim_C3_load_missing_file_empty :
    Console.load_routines none = some [] ∧
    Console.load_workout_logs none = [] ∧
    Gui.load_routines none = [] ∧
    Gui.load_workout_logs none = [] ∧
    App.load_routines none = [] ∧
    App.load_workout_logs none = [] ∧
    App.load_nutrition_rest_logs none = [] ∧
    App.load_supplements none = [] :=
  ⟨rfl, rfl, rfl, rfl, rfl, rfl, rfl, rfl⟩

/-- C4 (amended): in the two windowed variants a routine with a blank
(stripped) name or an empty exercise list is rejected with a validation
error and the stored collection is unchanged; the console variant performs
no such validation — menu choice 1 appends and persists the new routine
even when its name is blank and it has zero exercises. -/
theorem claim_C4_create_routine_validation :
    (∀ stored name exs, pyStrip name = "" →
        App.save_routine stored name exs = (stored, some "루틴 이름을 입력하세요.") ∧
        Gui.save_routine stored name exs = (stored, some "루틴 이름을 입력하세요.")) ∧
    (∀ stored name exs, pyStrip name ≠ "" → exs = [] →
        App.save_routine stored name exs = (stored, some "운동을 최소 한 개 이상 추가하세요.") ∧
        Gui.save_routine stored name exs = (stored, some "운동을 최소 한 개 이상 추가하세요.")) ∧
    (∀ today st name rest,
        Console.main_step today st ("1" :: name :: "n" :: rest) =
          .cont (some "루틴이 저장되었습니다.") ⟨st.routines ++ [⟨name, []⟩], st.logs⟩ rest) := by
  refine ⟨?_, ?_, ?_⟩
  · intro stored name exs h
    exact ⟨by simp [App.save_routine, h], by simp [Gui.save_routine, h]⟩
  · intro stored name exs h1 h2
    subst h2
    exact ⟨by simp [App.save_routine, h1], by simp [Gui.save_routine, h1]⟩
  · intro today st name rest
    simp [Console.main_step, Console.create_new_routine, Console.create_new_routine_loop,
      show pyLower "n" = "n" from rfl]

/-- C4 counterexample: the console menu accepts a routine whose name is
blank and which has zero exercises — the collection grows from empty to one
entry instead of staying unchanged. -/
theorem claim_C4_counterexample :
    Console.main_step "2024-01-01" ⟨[], []⟩ ["1", "", "n"] =
      .cont (some "루틴이 저장되었습니다.") ⟨[⟨"", []⟩], []⟩ [] := by decide

/-- C4 witness: concrete application of the amended theorem. -/
theorem claim_C4_witness :
    App.save_routine [] "   " [] = ([], some "루틴 이름을 입력하세요.") ∧
    App.save_routine [] "Push" [] = ([], some "운동을 최소 한 개 이상 추가하세요.") := by
  refine ⟨(claim_C4_create_routine_validation.1 [] "   " [] (by decide)).1,
          (claim_C4_create_routine_validation.2.1 [] "Push" [] (by decide) rfl).1⟩

/-- C6 (amended): every variant serialises the *entire* collection with
4-space indentation; the two windowed variants pass `ensure_ascii=False`
and their encoder preserves every printable character other than `"` and
`\` — non-ASCII text included — unescaped; the console variant's
`save_routines` keeps the `ensure_ascii=True` default, which turns every
character outside `0x20..0x7e` into `\uXXXX` escapes. -/
theorem claim_C6_save_nonascii :
    (∀ routines,
        App.save_routines routines =
          pyJsonDumps 4 false (.arr (routines.map Routine.to_dict)) ∧
        Gui.save_routines routines =
          pyJsonDumps 4 false (.arr (routines.map Routine.to_dict)) ∧
        Console.save_routines routines =
          pyJsonDumps 4 true (.arr (routines.map Routine.to_dict))) ∧
    (∀ sups, App.save_supplements sups = pyJsonDumps 4 false (.arr (sups.map PyJson.str))) ∧
    (∀ c : Char, 0x20 ≤ c.toNat → c ≠ '"' → c ≠ '\\' →
        escapeCharRaw c = String.singleton c) ∧
    (∀ c : Char, 0x7f ≤ c.toNat → c.toNat < 0x10000 →
        escapeCharAscii c = uEscape c.toNat) := by
  refine ⟨fun routines => ⟨rfl, rfl, rfl⟩, fun sups => rfl, ?_, ?_⟩
  · intro c h1 h2 h3
    have e8 : c ≠ '\x08' := fun h => by subst h; exact absurd h1 (by decide)
    have e12 : c ≠ '\x0c' := fun h => by subst h; exact absurd h1 (by decide)
    have e10 : c ≠ '\n' := fun h => by subst h; exact absurd h1 (by decide)
    have e13 : c ≠ '\r' := fun h => by subst h; exact absurd h1 (by decide)
    have e9 : c ≠ '\t' := fun h => by subst h; exact absurd h1 (by decide)
    have hlt : ¬ c.toNat < 0x20 := by omega
    simp [escapeCharRaw, escShort, h2, h3, e8, e12, e10, e13, e9, hlt]
  · intro c h1 h2
    have q1 : c ≠ '"' := fun h => by subst h; exact absurd h1 (by decide)
    have q2 : c ≠ '\\' := fun h => by subst h; exact absurd h1 (by decide)
    have e8 : c ≠ '\x08' := fun h => by subst h; exact absurd h1 (by decide)
    have e12 : c ≠ '\x0c' := fun h => by subst h; exact absurd h1 (by decide)
    have e10 : c ≠ '\n' := fun h => by subst h; exact absurd h1 (by decide)
    have e13 : c ≠ '\r' := fun h => by subst h; exact absurd h1 (by decide)
    have e9 : c ≠ '\t' := fun h => by subst h; exact absurd h1 (by decide)
    have hrange : ¬ (0x20 ≤ c.toNat ∧ c.toNat < 0x7f) := by omega
    simp [escapeCharAscii, escShort, q1, q2, e8, e12, e10, e13, e9, hrange, h2]

/-- C6 counterexample: the console variant's `save_routines` turns the
Korean routine name 벤치 into backslash-u escape sequences while the
windowed variants keep it verbatim — the console output does not preserve
non-ASCII text. -/
theorem claim_C6_counterexample :
    Console.save_routines [⟨"벤치", []⟩] =
      "[\n    \x7b\n        \"name\": \"\\ubca4\\uce58\",\n        \"exercises\": []\n    \x7d\n]" ∧
    App.save_routines [⟨"벤치", []⟩] =
      "[\n    \x7b\n        \"name\": \"벤치\",\n        \"exercises\": []\n    \x7d\n]" ∧
    Console.save_routines [⟨"벤치", []⟩] ≠ App.save_routines [⟨"벤치", []⟩] :=
  ⟨by decide, by decide, by decide⟩

/-- C6 witness: concrete application of the amended theorem to a Korean
character. -/
theorem claim_C6_witness :
    escapeCharRaw '벤' = String.singleton '벤' ∧
    escapeCharAscii '벤' = uEscape ('벤'.toNat) :=
  ⟨claim_C6_save_nonascii.2.2.1 '벤' (by decide) (by decide) (by decide),
   claim_C6_save_nonascii.2.2.2 '벤' (by decide) (by decide)⟩

/-- C7 (amended): in the windowed variants a weight/reps/rir parse failure
while adding a set is reported with an error dialog and aborts with no side
effect — no set is recorded and the whole session state (accumulator
included) is unchanged.  A non-numeric rest-timer seconds field, however,
is not reported: `get_timer_time` silently falls back to 60 and the manual
timer button still opens a 60-second countdown. -/
theorem claim_C7_invalid_input_no_side_effects :
    (∀ routine st w r i,
        pyFloat? w = none ∨ pyInt? r = none ∨ pyInt? i = none →
          App.add_set routine st w r i = (st, some "올바른 숫자를 입력하세요.")) ∧
    (∀ routine idx sets log w r i,
        pyFloat? w = none ∨ pyInt? r = none ∨ pyInt? i = none →
          Gui.add_set routine idx sets log w r i = ((sets, log), some "올바른 숫자를 입력하세요.")) ∧
    (∀ s, pyInt? s = none →
        App.get_timer_time s = 60 ∧ App.manual_timer_button s = some 60) := by
  refine ⟨?_, ?_, ?_⟩
  · intro routine st w r i h
    rcases h with h | h | h
    · simp [App.add_set, h]
    · cases hw : pyFloat? w <;> simp [App.add_set, hw, h]
    · cases hw : pyFloat? w <;> cases hr : pyInt? r <;> simp [App.add_set, hw, hr, h]
  · intro routine idx sets log w r i h
    rcases h with h | h | h
    · simp [Gui.add_set, h]
    · cases hw : pyFloat? w <;> simp [Gui.add_set, hw, h]
    · cases hw : pyFloat? w <;> cases hr : pyInt? r <;> simp [Gui.add_set, hw, hr, h]
  · intro s h
    refine ⟨by simp [App.get_timer_time, h], ?_⟩
    simp [App.manual_timer_button, App.run_timer, App.get_timer_time, h]

/-- C7 counterexample: a non-numeric rest-timer field is not reported and
the operation is not aborted — the manual timer button opens a 60-second
countdown window instead. -/
theorem claim_C7_counterexample :
    App.manual_timer_button "abc" = some 60 ∧ App.manual_timer_button "abc" ≠ none :=
  ⟨by decide, by decide⟩

/-- C7 witness: concrete application of the amended theorem. -/
theorem claim_C7_witness :
    App.add_set ⟨"Push", [⟨"벤치", "Chest", []⟩]⟩
        (App.init_state [] ⟨"Push", [⟨"벤치", "Chest", []⟩]⟩ "2024-05-01") "abc" "5" "2" =
      (App.init_state [] ⟨"Push", [⟨"벤치", "Chest", []⟩]⟩ "2024-05-01",
        some "올바른 숫자를 입력하세요.") ∧
    App.get_timer_time "abc" = 60 :=
  ⟨claim_C7_invalid_input_no_side_effects.1 _ _ "abc" "5" "2" (Or.inl (by decide)),
   (claim_C7_invalid_input_no_side_effects.2.2 "abc" (by decide)).1⟩

/-- C8 (amended): the extended variant pre-fills the rest-timer field from
the stored logs scanned in *reverse storage order and restricted to earlier
sessions of the same routine*: the first such log that carries a
`timer_time` for this exercise name supplies the value, and the literal
string "60" is used when no such record exists.  The session window's
initial display uses exactly this pre-fill for the first exercise. -/
theorem claim_C8_timer_prefill :
    (∀ logs routine date ex, routine.exercises.get? 0 = some ex →
        (App.init_state logs routine date).exercise_timer_entry =
          App.get_previous_timer_time logs routine.name date ex.name) ∧
    (∀ logs rn sd en,
        (∀ l ∈ logs, ¬(l.routine_name = rn ∧ pyStrLt l.date sd = true ∧
            (App.timer_of_exercise l.exercises en).isSome = true)) →
          App.get_previous_timer_time logs rn sd en = "60") ∧
    (∀ logs rn sd en l pre post t,
        logs = pre ++ l :: post →
        l.routine_name = rn → pyStrLt l.date sd = true →
        App.timer_of_exercise l.exercises en = some t →
        (∀ q ∈ post, ¬(q.routine_name = rn ∧ pyStrLt q.date sd = true ∧
            (App.timer_of_exercise q.exercises en).isSome = true)) →
          App.get_previous_timer_time logs rn sd en = t) := by
  refine ⟨?_, ?_, ?_⟩
  · intro logs routine date ex h
    rw [List.get?_eq_getElem?] at h
    simp [App.init_state, h]
  · intro logs rn sd en h
    have hn : (logs.reverse.find? (fun log =>
        log.routine_name == rn && pyStrLt log.date sd &&
          (App.timer_of_exercise log.exercises en).isSome)) = none := by
      rw [find?_reverse_eq_none]
      intro x hx
      have hx2 := h x hx
      simp only [Bool.and_eq_false_iff]
      by_cases h1 : x.routine_name = rn
      · by_cases h2 : pyStrLt x.date sd = true
        · right
          simp only [not_and] at hx2
          have := hx2 h1 h2
          simpa using this
        · left
          right
          simpa using h2
      · left
        left
        simpa using h1
    rw [App.get_previous_timer_time, hn]
  · intro logs rn sd en l pre post t heq h1 h2 h3 hpost
    have hs : (logs.reverse.find? (fun log =>
        log.routine_name == rn && pyStrLt log.date sd &&
          (App.timer_of_exercise log.exercises en).isSome)) = some l := by
      rw [find?_reverse_eq_some]
      refine ⟨by simp [h1, h2, h3], pre, post, heq, ?_⟩
      intro y hy
      have hy2 := hpost y hy
      simp only [Bool.and_eq_false_iff]
      by_cases g1 : y.routine_name = rn
      · by_cases g2 : pyStrLt y.date sd = true
        · right
          simp only [not_and] at hy2
          have := hy2 g1 g2
          simpa using this
        · left
          right
          simpa using g2
      · left
        left
        simpa using g1
    rw [App.get_previous_timer_time, hs]
    simp [h3]

/-- Demonstration log collection for the C8 counterexample: one earlier
session, of a *different* routine, containing the exercise with a stored
timer. -/
def c8Logs : List LogRec :=
  [⟨"2024-01-01", "Pull", initDict PyFloat.zero, initDict 0,
    [⟨"Row", "Back", [], some "90"⟩]⟩]

/-- Formalisation of the claim's own wording: the `timer_time` stored for
the most recent (by date) earlier session record of the same exercise name,
with no routine restriction, falling back to "60". -/
def claimed_prefill (logs : List LogRec) (session_date exercise_name : String) : String :=
  match (sortByKey (fun l => l.date) (logs.filter (fun l =>
      pyStrLt l.date session_date &&
        (App.timer_of_exercise l.exercises exercise_name).isSome))).getLast? with
  | some l => (App.timer_of_exercise l.exercises exercise_name).getD "60"
  | none => "60"

/-- C8 counterexample: with one earlier "Pull" session storing timer "90"
for exercise "Row", starting a "Push" session displaying "Row" pre-fills
"60" — the code restricts the scan to sessions of the same routine, which
the claim's wording does not. -/
theorem claim_C8_counterexample :
    claimed_prefill c8Logs "2024-02-02" "Row" = "90" ∧
    App.get_previous_timer_time c8Logs "Push" "2024-02-02" "Row" = "60" ∧
    ("90" : String) ≠ "60" :=
  ⟨by decide, by decide, by decide⟩

/-- C8 witness: concrete applications of the amended theorem. -/
theorem claim_C8_witness :
    App.get_previous_timer_time [] "Push" "2024-02-02" "Row" = "60" ∧
    App.get_previous_timer_time
        [⟨"2024-01-01", "Push", [], [], [⟨"Row", "Back", [], some "75"⟩]⟩]
        "Push" "2024-02-02" "Row" = "75" :=
  ⟨claim_C8_timer_prefill.2.1 [] "Push" "2024-02-02" "Row" (by simp),
   claim_C8_timer_prefill.2.2 _ "Push" "2024-02-02" "Row"
     ⟨"2024-01-01", "Push", [], [], [⟨"Row", "Back", [], some "75"⟩]⟩ [] [] "75"
     rfl rfl (by decide) (by decide) (by simp)⟩

/-- C9: for every muscle group and stored collection, the trend-chart data
is exactly the qualifying logs (non-zero volume for that group) sorted
ascending by date and clipped to the chronologically most recent 10 — so it
never exceeds 10 points — and the chart is replaced by an informational
message precisely when no log qualifies. -/
theorem claim_C9_trend_chart (logs : List LogRec) (muscle : String) :
    (App.plot_muscle_data logs muscle = none ↔
      ∀ log ∈ logs, dictGetD log.muscle_volumes muscle PyFloat.zero = PyFloat.zero) ∧
    (∀ data, App.plot_muscle_data logs muscle = some data →
      data.length ≤ 10 ∧
      (let sorted := sortByKey (fun x => x.1)
          (logs.filterMap (fun log =>
            let vol := dictGetD log.muscle_volumes muscle PyFloat.zero
            if vol = PyFloat.zero then none
            else some (log.date, dictGetD log.sets_count muscle (0 : Int), vol)))
       data = sorted.drop (sorted.length - 10) ∧
       sorted.Pairwise (keyLe (fun x => x.1)) ∧
       ∀ x ∈ sorted.take (sorted.length - 10), ∀ y ∈ data, pyStrLt y.1 x.1 = false) ∧
      ∀ x ∈ data, ∃ log ∈ logs,
        x = (log.date, dictGetD log.sets_count muscle (0 : Int),
             dictGetD log.muscle_volumes muscle PyFloat.zero) ∧
        dictGetD log.muscle_volumes muscle PyFloat.zero ≠ PyFloat.zero) := by
  classical
  set f : LogRec → Option (String × Int × PyFloat) := fun log =>
    if dictGetD log.muscle_volumes muscle PyFloat.zero = PyFloat.zero then none
    else some (log.date, dictGetD log.sets_count muscle (0 : Int),
               dictGetD log.muscle_volumes muscle PyFloat.zero) with hf
  have hplot : App.plot_muscle_data logs muscle =
      (if (sortByKey (fun x => x.1) (logs.filterMap f)).drop
            ((sortByKey (fun x => x.1) (logs.filterMap f)).length - 10) |>.isEmpty
       then none
       else some ((sortByKey (fun x => x.1) (logs.filterMap f)).drop
            ((sortByKey (fun x => x.1) (logs.filterMap f)).length - 10))) := rfl
  set sorted := sortByKey (fun x : String × Int × PyFloat => x.1) (logs.filterMap f) with hsorted
  set clipped := sorted.drop (sorted.length - 10) with hclipped
  have hclen : clipped.length = sorted.length - (sorted.length - 10) := by
    rw [hclipped, List.length_drop]
  constructor
  · rw [hplot]
    constructor
    · intro hnone log hlog
      by_contra hvol
      have hempty : clipped.isEmpty = true := by
        by_contra hne
        rw [if_neg (by simpa using hne)] at hnone
        cases hnone
      have hse : sorted = [] := by
        have h0 : clipped = [] := List.isEmpty_iff.mp hempty
        have := hclen
        rw [h0] at this
        simp at this
        have hlen0 : sorted.length = 0 := by omega
        exact List.eq_nil_of_length_eq_zero hlen0
      have hmem : (log.date, dictGetD log.sets_count muscle (0 : Int),
          dictGetD log.muscle_volumes muscle PyFloat.zero) ∈ sorted := by
        rw [hsorted, mem_sortByKey]
        rw [List.mem_filterMap]
        exact ⟨log, hlog, by rw [hf]; simp [hvol]⟩
      rw [hse] at hmem
      cases hmem
    · intro hall
      have hfm : logs.filterMap f = [] := by
        rw [List.filterMap_eq_nil_iff]
        intro a ha
        rw [hf]
        simp [hall a ha]
      have hse : sorted = [] := by
        rw [hsorted, hfm]
        rfl
      rw [if_pos]
      rw [hclipped, hse]
      rfl
  · intro data hdata
    rw [hplot] at hdata
    have hne : clipped.isEmpty = false := by
      by_contra h
      rw [if_pos (by simpa using h)] at hdata
      cases hdata
    rw [if_neg (by simp [hne])] at hdata
    injection hdata with hdata
    subst hdata
    refine ⟨by omega, ⟨rfl, ?_, ?_⟩, ?_⟩
    · rw [hsorted]
      exact pairwise_sortByKey _ _
    · intro x hx y hy
      have hsp := pairwise_sortByKey (fun x : String × Int × PyFloat => x.1) (logs.filterMap f)
      rw [← hsorted] at hsp
      have hsplit : sorted = sorted.take (sorted.length - 10) ++ clipped := by
        rw [hclipped, List.take_append_drop]
      rw [hsplit] at hsp
      have := (List.pairwise_append.mp hsp).2.2 x hx y hy
      exact this
    · intro x hx
      have hmem : x ∈ sorted := List.mem_of_mem_drop hx
      rw [hsorted, mem_sortByKey, List.mem_filterMap] at hmem
      obtain ⟨log, hlog, hfx⟩ := hmem
      simp only [hf] at hfx
      by_cases hvol : dictGetD log.muscle_volumes muscle PyFloat.zero = PyFloat.zero
      · rw [if_pos hvol] at hfx
        cases hfx
      · rw [if_neg hvol] at hfx
        injection hfx with hfx
        exact ⟨log, hlog, hfx.symm, hvol⟩

/-- C9 witness: concrete application (one qualifying log). -/
theorem claim_C9_witness :
    App.plot_muscle_data
        [⟨"2024-05-01", "Push", [("Chest", PyFloat.ofInt 100)], [("Chest", 3)], []⟩]
        "Chest" = some [("2024-05-01", 3, PyFloat.ofInt 100)] ∧
    ([("2024-05-01", (3 : Int), PyFloat.ofInt 100)] : List (String × Int × PyFloat)).length ≤ 10 := by
  refine ⟨by decide, ?_⟩
  have h := (claim_C9_trend_chart
    [⟨"2024-05-01", "Push", [("Chest", PyFloat.ofInt 100)], [("Chest", 3)], []⟩] "Chest").2
    [("2024-05-01", 3, PyFloat.ofInt 100)] (by decide)
  exact h.1

theorem matchesBool_iff (rn d : String) (q : LogRec) :
    (q.routine_name == rn && pyStrLt q.date d) = true ↔
      (q.routine_name = rn ∧ pyStrLt q.date d = true) := by
  simp [Bool.and_eq_true, beq_iff_eq]

theorem matchesBool_false_iff (rn d : String) (q : LogRec) :
    (q.routine_name == rn && pyStrLt q.date d) = false ↔
      ¬(q.routine_name = rn ∧ pyStrLt q.date d = true) := by
  rw [Bool.eq_false_iff, Ne, matchesBool_iff]

/-- The basic windowed variant's comparison is the same code as the console
one. -/
theorem gui_compare_eq_console :
    Gui.compare_with_previous = Console.compare_with_previous := rfl

/-- C1: finalising a session in any variant appends the new log and then
compares against the first entry found scanning the stored collection in
reverse storage order whose routine name matches and whose date is strictly
smaller (the just-appended log never qualifies); if an entry is found, the
report holds (current, previous, difference) per muscle group — the
extended windowed variant omitting every group with zero current volume,
the other variants reporting all 8 — and if none is found, a
no-comparison-available message is reported. -/
theorem claim_C1_previous_session_comparison (old : List LogRec) (L : LogRec) :
    find_previous_log (old ++ [L]) L.routine_name L.date =
        find_previous_log old L.routine_name L.date ∧
    (∀ p, find_previous_log (old ++ [L]) L.routine_name L.date = some p ↔
        ((p.routine_name = L.routine_name ∧ pyStrLt p.date L.date = true) ∧
         ∃ pre post, old ++ [L] = pre ++ p :: post ∧
           ∀ q ∈ post, ¬(q.routine_name = L.routine_name ∧ pyStrLt q.date L.date = true))) ∧
    (find_previous_log (old ++ [L]) L.routine_name L.date = none ↔
        ∀ q ∈ old ++ [L], ¬(q.routine_name = L.routine_name ∧ pyStrLt q.date L.date = true)) ∧
    (∀ p, find_previous_log (old ++ [L]) L.routine_name L.date = some p →
        (∃ es, App.compare_with_previous (old ++ [L]) L = .report es ∧
          ∀ mg c pv d, ((mg, c, pv, d) ∈ es ↔
            mg ∈ MUSCLE_GROUPS ∧
            c = dictGetD L.muscle_volumes mg PyFloat.zero ∧ c ≠ PyFloat.zero ∧
            pv = dictGetD p.muscle_volumes mg PyFloat.zero ∧ d = c.sub pv)) ∧
        (∃ es, Console.compare_with_previous (old ++ [L]) L = .report es ∧
          ∀ mg c pv d, ((mg, c, pv, d) ∈ es ↔
            mg ∈ MUSCLE_GROUPS ∧
            c = dictGetD L.muscle_volumes mg PyFloat.zero ∧
            pv = dictGetD p.muscle_volumes mg PyFloat.zero ∧ d = c.sub pv)) ∧
        (∃ es, Gui.compare_with_previous (old ++ [L]) L = .report es ∧
          ∀ mg c pv d, ((mg, c, pv, d) ∈ es ↔
            mg ∈ MUSCLE_GROUPS ∧
            c = dictGetD L.muscle_volumes mg PyFloat.zero ∧
            pv = dictGetD p.muscle_volumes mg PyFloat.zero ∧ d = c.sub pv))) ∧
    (find_previous_log (old ++ [L]) L.routine_name L.date = none →
        App.compare_with_previous (old ++ [L]) L = .noPrevious ∧
        Console.compare_with_previous (old ++ [L]) L = .noPrevious ∧
        Gui.compare_with_previous (old ++ [L]) L = .noPrevious) := by
  refine ⟨?_, ?_, ?_, ?_, ?_⟩
  · rw [find_previous_log, find_previous_log, List.reverse_append]
    simp [List.find?_cons, pyStrLt_irrefl L.date]
  · intro p
    rw [find_previous_log, find?_reverse_eq_some]
    constructor
    · rintro ⟨hp, pre, post, heq, hpost⟩
      exact ⟨(matchesBool_iff _ _ _).mp hp, pre, post, heq,
        fun q hq => (matchesBool_false_iff _ _ _).mp (hpost q hq)⟩
    · rintro ⟨hp, pre, post, heq, hpost⟩
      exact ⟨(matchesBool_iff _ _ _).mpr hp, pre, post, heq,
        fun q hq => (matchesBool_false_iff _ _ _).mpr (hpost q hq)⟩
  · rw [find_previous_log, find?_reverse_eq_none]
    constructor
    · intro h q hq
      exact (matchesBool_false_iff _ _ _).mp (h q hq)
    · intro h q hq
      exact (matchesBool_false_iff _ _ _).mpr (h q hq)
  · intro p h
    refine ⟨?_, ?_, ?_⟩
    · refine ⟨_, by unfold App.compare_with_previous; rw [h], ?_⟩
      intro mg c pv d
      constructor
      · intro hmem
        rw [List.mem_map] at hmem
        obtain ⟨mg2, hmg2, hEq⟩ := hmem
        rw [List.mem_filter] at hmg2
        simp only [Prod.mk.injEq] at hEq
        obtain ⟨h1, h2, h3, h4⟩ := hEq
        subst h1
        refine ⟨hmg2.1, h2.symm, ?_, h3.symm, by rw [h2, h3] at h4; exact h4.symm⟩
        have := hmg2.2
        rw [decide_eq_true_eq] at this
        rw [h2] at this
        exact this
      · rintro ⟨hmg, hc, hne, hpv, hd⟩
        rw [List.mem_map]
        refine ⟨mg, ?_, ?_⟩
        · rw [List.mem_filter]
          refine ⟨hmg, ?_⟩
          rw [decide_eq_true_eq]
          rw [← hc]
          exact hne
        · simp only [Prod.mk.injEq]
          exact ⟨trivial, hc.symm, hpv.symm, by rw [hc, hpv] at hd; exact hd.symm⟩
    · refine ⟨_, by unfold Console.compare_with_previous; rw [h], ?_⟩
      intro mg c pv d
      constructor
      · intro hmem
        rw [List.mem_map] at hmem
        obtain ⟨mg2, hmg2, hEq⟩ := hmem
        simp only [Prod.mk.injEq] at hEq
        obtain ⟨h1, h2, h3, h4⟩ := hEq
        subst h1
        exact ⟨hmg2, h2.symm, h3.symm, by rw [h2, h3] at h4; exact h4.symm⟩
      · rintro ⟨hmg, hc, hpv, hd⟩
        rw [List.mem_map]
        refine ⟨mg, hmg, ?_⟩
        simp only [Prod.mk.injEq]
        exact ⟨trivial, hc.symm, hpv.symm, by rw [hc, hpv] at hd; exact hd.symm⟩
    · rw [gui_compare_eq_console]
      refine ⟨_, by unfold Console.compare_with_previous; rw [h], ?_⟩
      intro mg c pv d
      constructor
      · intro hmem
        rw [List.mem_map] at hmem
        obtain ⟨mg2, hmg2, hEq⟩ := hmem
        simp only [Prod.mk.injEq] at hEq
        obtain ⟨h1, h2, h3, h4⟩ := hEq
        subst h1
        exact ⟨hmg2, h2.symm, h3.symm, by rw [h2, h3] at h4; exact h4.symm⟩
      · rintro ⟨hmg, hc, hpv, hd⟩
        rw [List.mem_map]
        refine ⟨mg, hmg, ?_⟩
        simp only [Prod.mk.injEq]
        exact ⟨trivial, hc.symm, hpv.symm, by rw [hc, hpv] at hd; exact hd.symm⟩
  · intro h
    refine ⟨?_, ?_, ?_⟩
    · unfold App.compare_with_previous
      rw [h]
    · unfold Console.compare_with_previous
      rw [h]
    · rw [gui_compare_eq_console]
      unfold Console.compare_with_previous
      rw [h]

/-- C1 witness: concrete applications — a first-ever session reports the
no-comparison message, and a session with one earlier same-routine log
reports the Chest line with the volume difference. -/
theorem claim_C1_witness :
    App.compare_with_previous ([] ++ [(⟨"2024-05-01", "Push", [], [], []⟩ : LogRec)])
        ⟨"2024-05-01", "Push", [], [], []⟩ = .noPrevious ∧
    Console.compare_with_previous ([] ++ [(⟨"2024-05-01", "Push", [], [], []⟩ : LogRec)])
        ⟨"2024-05-01", "Push", [], [], []⟩ = .noPrevious ∧
    (∃ es, App.compare_with_previous
        ([⟨"2024-05-08", "Push", [("Chest", PyFloat.ofInt 1200)], [], []⟩] ++
          [(⟨"2024-05-15", "Push", [("Chest", PyFloat.ofInt 1500)], [], []⟩ : LogRec)])
        ⟨"2024-05-15", "Push", [("Chest", PyFloat.ofInt 1500)], [], []⟩ = .report es ∧
      ("Chest", PyFloat.ofInt 1500, PyFloat.ofInt 1200,
        (PyFloat.ofInt 1500).sub (PyFloat.ofInt 1200)) ∈ es) := by
  have h1 := (claim_C1_previous_session_comparison []
    ⟨"2024-05-01", "Push", [], [], []⟩).2.2.2.2 (by decide)
  refine ⟨h1.1, h1.2.1, ?_⟩
  have h2 := (claim_C1_previous_session_comparison
    [⟨"2024-05-08", "Push", [("Chest", PyFloat.ofInt 1200)], [], []⟩]
    ⟨"2024-05-15", "Push", [("Chest", PyFloat.ofInt 1500)], [], []⟩).2.2.2.1
    ⟨"2024-05-08", "Push", [("Chest", PyFloat.ofInt 1200)], [], []⟩ (by decide)
  obtain ⟨es, hes, hiff⟩ := h2.1
  refine ⟨es, hes, ?_⟩
  exact (hiff "Chest" (PyFloat.ofInt 1500) (PyFloat.ofInt 1200)
    ((PyFloat.ofInt 1500).sub (PyFloat.ofInt 1200))).mpr
    ⟨by decide, by decide, by decide, by decide, rfl⟩

/-- C5 (amended): in the console variant only the menu-choice comparison
and the routine-number prompt are protected — an unrecognised menu choice
prints an error and the menu re-displays, a non-numeric routine number is
caught with a message, and an out-of-range routine number is rejected with
a message after which the menu re-displays.  Non-numeric input at the
muscle-group, set-count, weight, reps, RIR and timer-seconds prompts of
`create_exercise` is *not* caught: the uncaught `ValueError` crashes the
program. -/
theorem claim_C5_console_input_handling :
    (∀ today st s rest,
        s ≠ "1" → s ≠ "2" → s ≠ "3" → s ≠ "4" → s ≠ "5" →
          Console.main_step today st (s :: rest) =
            .cont (some "잘못된 입력입니다. 다시 시도하세요.") st rest) ∧
    (∀ today st s rest, st.routines ≠ [] → pyInt? s = none →
        Console.main_step today st ("3" :: s :: rest) =
          .cont (some "숫자를 입력하세요.") st rest) ∧
    (∀ today st s n rest, st.routines ≠ [] → pyInt? s = some n →
        (n - 1 < 0 ∨ (st.routines.length : Int) ≤ n - 1) →
          Console.main_step today st ("3" :: s :: rest) =
            .cont (some "잘못된 선택입니다.") st rest) ∧
    (∀ name s rest, pyInt? s = none →
        Console.create_exercise (name :: s :: rest) = .crash) ∧
    (∀ name s rest, pyInt? s = none →
        Console.create_exercise (name :: "1" :: s :: rest) = .crash) ∧
    (∀ name s rest, pyFloat? s = none →
        Console.create_exercise (name :: "1" :: "1" :: s :: rest) = .crash) ∧
    (∀ name s rest, pyInt? s = none →
        Console.create_exercise (name :: "1" :: "1" :: "50" :: s :: rest) = .crash) ∧
    (∀ name s rest, pyInt? s = none →
        Console.create_exercise (name :: "1" :: "1" :: "50" :: "5" :: s :: rest) = .crash) ∧
    (∀ name s rest, pyInt? s = none →
        Console.create_exercise
          (name :: "1" :: "2" :: "50" :: "5" :: "3" :: "y" :: s :: rest) = .crash) := by
  refine ⟨?_, ?_, ?_, ?_, ?_, ?_, ?_, ?_, ?_⟩
  · intro today st s rest h1 h2 h3 h4 h5
    simp [Console.main_step, h1, h2, h3, h4, h5]
  · intro today st s rest hr hs
    simp [Console.main_step, hr, hs]
  · intro today st s n rest hr hs hrange
    simp [Console.main_step, hr, hs, hrange]
    intro hge hlt
    exact absurd hrange (by omega)
  · intro name s rest hs
    simp [Console.create_exercise, hs]
  · intro name s rest hs
    simp [Console.create_exercise, hs, Console.pyIndex,
      show pyInt? "1" = some 1 from by decide]
    split <;> rfl
  · intro name s rest hs
    cases rest with
    | nil =>
      simp [Console.create_exercise, Console.set_loop, Console.pyIndex, hs,
        show pyInt? "1" = some 1 from by decide,
        show MUSCLE_GROUPS[0]? = some "Chest" from rfl]
    | cons a rest2 =>
      cases rest2 with
      | nil =>
        simp [Console.create_exercise, Console.set_loop, Console.pyIndex, hs,
          show pyInt? "1" = some 1 from by decide,
          show MUSCLE_GROUPS[0]? = some "Chest" from rfl]
      | cons b rest3 =>
        simp [Console.create_exercise, Console.set_loop, Console.pyIndex, hs,
          show pyInt? "1" = some 1 from by decide,
          show MUSCLE_GROUPS[0]? = some "Chest" from rfl]
  · intro name s rest hs
    cases rest with
    | nil =>
      simp [Console.create_exercise, Console.set_loop, Console.pyIndex, hs,
        show pyInt? "1" = some 1 from by decide,
        show pyFloat? "50" = some (PyFloat.ofInt 50) from by decide,
        show MUSCLE_GROUPS[0]? = some "Chest" from rfl]
    | cons a rest2 =>
      simp [Console.create_exercise, Console.set_loop, Console.pyIndex, hs,
        show pyInt? "1" = some 1 from by decide,
        show pyFloat? "50" = some (PyFloat.ofInt 50) from by decide,
        show MUSCLE_GROUPS[0]? = some "Chest" from rfl]
  · intro name s rest hs
    simp [Console.create_exercise, Console.set_loop, Console.pyIndex, hs,
      show pyInt? "1" = some 1 from by decide,
      show pyInt? "5" = some 5 from by decide,
      show pyFloat? "50" = some (PyFloat.ofInt 50) from by decide,
      show MUSCLE_GROUPS[0]? = some "Chest" from rfl]
  · intro name s rest hs
    simp [Console.create_exercise, Console.set_loop, Console.timer_between_sets,
      Console.pyIndex, hs,
      show pyInt? "1" = some 1 from by decide,
      show pyInt? "2" = some 2 from by decide,
      show pyInt? "5" = some 5 from by decide,
      show pyInt? "3" = some 3 from by decide,
      show pyFloat? "50" = some (PyFloat.ofInt 50) from by decide,
      show pyLower "y" = "y" from rfl,
      show MUSCLE_GROUPS[0]? = some "Chest" from rfl]

/-- C5 counterexample: non-numeric input at the muscle-group prompt crashes
the console program instead of printing an error and re-prompting. -/
theorem claim_C5_counterexample :
    Console.create_exercise ["벤치프레스", "x"] = .crash := by decide

/-- C5 witness: concrete applications of the amended theorem. -/
theorem claim_C5_witness :
    Console.main_step "2024-05-01" ⟨[⟨"Push", []⟩], []⟩ ["9", "4"] =
      .cont (some "잘못된 입력입니다. 다시 시도하세요.") ⟨[⟨"Push", []⟩], []⟩ ["4"] ∧
    Console.main_step "2024-05-01" ⟨[⟨"Push", []⟩], []⟩ ["3", "abc"] =
      .cont (some "숫자를 입력하세요.") ⟨[⟨"Push", []⟩], []⟩ [] ∧
    Console.main_step "2024-05-01" ⟨[⟨"Push", []⟩], []⟩ ["3", "7"] =
      .cont (some "잘못된 선택입니다.") ⟨[⟨"Push", []⟩], []⟩ [] ∧
    Console.create_exercise ["스쿼트", "abc"] = .crash := by
  refine ⟨?_, ?_, ?_, ?_⟩
  · exact claim_C5_console_input_handling.1 "2024-05-01" ⟨[⟨"Push", []⟩], []⟩ "9" ["4"]
      (by decide) (by decide) (by decide) (by decide) (by decide)
  · exact claim_C5_console_input_handling.2.1 "2024-05-01" ⟨[⟨"Push", []⟩], []⟩ "abc" []
      (by decide) (by decide)
  · exact claim_C5_console_input_handling.2.2.1 "2024-05-01" ⟨[⟨"Push", []⟩], []⟩ "7" 7 []
      (by decide) (by decide) (by decide)
  · exact claim_C5_console_input_handling.2.2.2.1 "스쿼트" "abc" [] (by decide)

/-- Sets that a sequence of `세트 추가` clicks records, numbered from `n+1`
(the parse-failing clicks record nothing). -/
def parsedSetsAux : Nat → List (String × String × String) → List SetDetail
  | _, [] => []
  | n, t :: ts =>
    match pyFloat? t.1, pyInt? t.2.1, pyInt? t.2.2 with
    | some w, some r, some i => ⟨(n : Int) + 1, w, r, i⟩ :: parsedSetsAux (n + 1) ts
    | _, _, _ => parsedSetsAux n ts

/-- The sets recorded during one exercise of a session. -/
def parsedSets (adds : List (String × String × String)) : List SetDetail :=
  parsedSetsAux 0 adds

theorem add_set_fields (routine : Routine) (st : App.SessionState) (w r i : String) :
    (App.add_set routine st w r i).1.current_exercise_index = st.current_exercise_index ∧
    (App.add_set routine st w r i).1.exercise_timer_entry = st.exercise_timer_entry ∧
    (App.add_set routine st w r i).1.session_log.exercises = st.session_log.exercises ∧
    (App.add_set routine st w r i).1.session_log.date = st.session_log.date := by
  rw [App.add_set]
  split
  · split
    · exact ⟨rfl, rfl, rfl, rfl⟩
    · exact ⟨rfl, rfl, rfl, rfl⟩
  · exact ⟨rfl, rfl, rfl, rfl⟩

theorem apply_adds_fields (routine : Routine) (adds : List (String × String × String)) :
    ∀ st : App.SessionState,
      (App.apply_adds routine st adds).current_exercise_index = st.current_exercise_index ∧
      (App.apply_adds routine st adds).exercise_timer_entry = st.exercise_timer_entry ∧
      (App.apply_adds routine st adds).session_log.exercises = st.session_log.exercises ∧
      (App.apply_adds routine st adds).session_log.date = st.session_log.date := by
  induction adds with
  | nil => intro st; exact ⟨rfl, rfl, rfl, rfl⟩
  | cons t ts ih =>
    intro st
    have h1 := add_set_fields routine st t.1 t.2.1 t.2.2
    have h2 := ih (App.add_set routine st t.1 t.2.1 t.2.2).1
    rw [App.apply_adds] at h2 ⊢
    rw [List.foldl_cons]
    exact ⟨h2.1.trans h1.1, h2.2.1.trans h1.2.1, h2.2.2.1.trans h1.2.2.1,
      h2.2.2.2.trans h1.2.2.2⟩

theorem apply_adds_sets (routine : Routine) (adds : List (String × String × String)) :
    ∀ (st : App.SessionState) (ex : Exercise),
      routine.exercises.get? st.current_exercise_index = some ex →
      (App.apply_adds routine st adds).current_exercise_sets =
        st.current_exercise_sets ++ parsedSetsAux st.current_exercise_sets.length adds := by
  induction adds with
  | nil => intro st ex _; simp [App.apply_adds, parsedSetsAux]
  | cons t ts ih =>
    intro st ex hex
    rw [App.apply_adds, List.foldl_cons, ← App.apply_adds]
    have hidx := (add_set_fields routine st t.1 t.2.1 t.2.2).1
    rw [parsedSetsAux]
    cases hw : pyFloat? t.1 with
    | none =>
      have hst : (App.add_set routine st t.1 t.2.1 t.2.2).1 = st := by
        rw [App.add_set, hw]
      rw [hst]
      exact ih st ex hex
    | some w =>
      cases hr : pyInt? t.2.1 with
      | none =>
        have hst : (App.add_set routine st t.1 t.2.1 t.2.2).1 = st := by
          rw [App.add_set, hw, hr]
        rw [hst]
        exact ih st ex hex
      | some r =>
        cases hi : pyInt? t.2.2 with
        | none =>
          have hst : (App.add_set routine st t.1 t.2.1 t.2.2).1 = st := by
            rw [App.add_set, hw, hr, hi]
          rw [hst]
          exact ih st ex hex
        | some i =>
          have hst : (App.add_set routine st t.1 t.2.1 t.2.2).1 =
              { st with
                current_exercise_sets := st.current_exercise_sets ++
                  [⟨(st.current_exercise_sets.length : Int) + 1, w, r, i⟩],
                session_log := { st.session_log with
                  muscle_volumes := dictModify st.session_log.muscle_volumes ex.muscle_group
                    (fun v => v.add (w.mulInt r)),
                  sets_count := dictModify st.session_log.sets_count ex.muscle_group
                    (fun c => c + 1) } } := by
            rw [App.add_set, hw, hr, hi, hex]
          rw [hst]
          have hex2 : routine.exercises.get? (({ st with
              current_exercise_sets := st.current_exercise_sets ++
                [⟨(st.current_exercise_sets.length : Int) + 1, w, r, i⟩],
              session_log := { st.session_log with
                muscle_volumes := dictModify st.session_log.muscle_volumes ex.muscle_group
                  (fun v => v.add (w.mulInt r)),
                sets_count := dictModify st.session_log.sets_count ex.muscle_group
                  (fun c => c + 1) } } : App.SessionState)).current_exercise_index = some ex := hex
          rw [ih _ ex hex2]
          simp [parsedSetsAux]

theorem run_phases_exercises_aux (logs : List LogRec) (routine : Routine) (date : String) :
    ∀ (phases : List App.ExPhase) (k : Nat) (st : App.SessionState),
      st.current_exercise_index = k →
      st.current_exercise_sets = [] →
      st.session_log.date = date →
      phases.length + k = routine.exercises.length →
      (∀ ex, routine.exercises.get? k = some ex →
        st.exercise_timer_entry = App.get_previous_timer_time logs routine.name date ex.name) →
      (App.run_phases logs routine st phases).session_log.exercises =
        st.session_log.exercises ++
          ((routine.exercises.drop k).zip phases).filterMap (fun p =>
            if (parsedSets p.2.adds).isEmpty then none
            else some ⟨p.1.name, p.1.muscle_group, parsedSets p.2.adds,
              some (p.2.timer_edit.getD
                (App.get_previous_timer_time logs routine.name date p.1.name))⟩) := by
  intro phases
  induction phases with
  | nil =>
    intro k st hidx hsets hdate hlen htimer
    simp [App.run_phases]
  | cons ph phs ih =>
    intro k st hidx hsets hdate hlen htimer
    have hk : k < routine.exercises.length := by
      simp only [List.length_cons] at hlen
      omega
    have hget : routine.exercises.get? k = some routine.exercises[k] := by
      rw [List.get?_eq_getElem?]
      exact List.getElem?_eq_getElem hk
    have hdrop : routine.exercises.drop k = routine.exercises[k] :: routine.exercises.drop (k + 1) :=
      List.drop_eq_getElem_cons hk
    have hgetst : routine.exercises.get? st.current_exercise_index = some routine.exercises[k] := by
      rw [hidx]
      exact hget
    have hf := apply_adds_fields routine ph.adds st
    have hs1sets : (App.apply_adds routine st ph.adds).current_exercise_sets =
        parsedSets ph.adds := by
      rw [apply_adds_sets routine ph.adds st routine.exercises[k] hgetst, hsets]
      rfl
    rw [App.run_phases, App.run_phase]
    set st1 := App.apply_adds routine st ph.adds with hst1
    set st2 := (match ph.timer_edit with
      | some t => { st1 with exercise_timer_entry := t }
      | none => st1) with hst2
    have hst2idx : st2.current_exercise_index = k := by
      rw [hst2]
      cases ph.timer_edit <;> simpa using hf.1.trans hidx
    have hst2sets : st2.current_exercise_sets = parsedSets ph.adds := by
      rw [hst2]
      cases ph.timer_edit <;> simpa using hs1sets
    have hst2ex : st2.session_log.exercises = st.session_log.exercises := by
      rw [hst2]
      cases ph.timer_edit <;> simpa using hf.2.2.1
    have hst2date : st2.session_log.date = date := by
      rw [hst2]
      cases ph.timer_edit <;> simpa using hf.2.2.2.trans hdate
    have hst2timer : st2.exercise_timer_entry =
        ph.timer_edit.getD (App.get_previous_timer_time logs routine.name date
          (routine.exercises[k]).name) := by
      rw [hst2]
      cases hte : ph.timer_edit with
      | none =>
        simpa using hf.2.1.trans (htimer routine.exercises[k] hget)
      | some t => rfl
    have hgetst2 : routine.exercises.get? st2.current_exercise_index =
        some routine.exercises[k] := by
      rw [hst2idx]
      exact hget
    have hlog2ex : (App.next_log routine st2).exercises = st.session_log.exercises ++
        (if (parsedSets ph.adds).isEmpty then []
         else [(⟨(routine.exercises[k]).name, (routine.exercises[k]).muscle_group,
            parsedSets ph.adds,
            some (ph.timer_edit.getD (App.get_previous_timer_time logs routine.name date
              (routine.exercises[k]).name))⟩ : ExRecord)]) := by
      rw [App.next_log, hgetst2, hst2sets]
      by_cases he : (parsedSets ph.adds).isEmpty
      · rw [if_pos he, if_pos he, hst2ex, List.append_nil]
      · rw [if_neg he, if_neg he]
        simp [hst2ex, hst2timer, hst2sets]
    have hlog2date : (App.next_log routine st2).date = date := by
      rw [App.next_log, hgetst2, hst2sets]
      by_cases he : (parsedSets ph.adds).isEmpty
      · rw [if_pos he]
        exact hst2date
      · rw [if_neg he]
        exact hst2date
    rw [App.next_exercise]
    rw [if_neg (by simp)]
    rw [hst2idx, hdrop]
    cases hnext : routine.exercises.get? (k + 1) with
    | some nex =>
      dsimp only
      have ihres := ih (k + 1)
        { current_exercise_index := k + 1
          current_exercise_sets := []
          exercise_timer_entry :=
            App.get_previous_timer_time logs routine.name st2.session_log.date nex.name
          session_log := App.next_log routine st2 }
        rfl rfl hlog2date (by simp only [List.length_cons] at hlen; omega)
        (by
          intro ex2 hex2
          rw [hnext] at hex2
          injection hex2 with hex2
          subst hex2
          simp [hst2date])
      rw [ihres]
      dsimp only
      rw [hlog2ex]
      simp only [List.zip_cons_cons, List.filterMap_cons]
      by_cases he : (parsedSets ph.adds).isEmpty
      · rw [if_pos he]
        simp [he]
      · rw [if_neg he]
        simp [he]
    | none =>
      have hphs : phs = [] := by
        have hlen2 : routine.exercises.length ≤ k + 1 := by
          rw [List.get?_eq_getElem?] at hnext
          exact List.getElem?_eq_none_iff.mp hnext
        have : phs.length = 0 := by
          simp only [List.length_cons] at hlen
          omega
        exact List.eq_nil_of_length_eq_zero this
      subst hphs
      rw [App.run_phases]
      dsimp only
      rw [hlog2ex]
      simp only [List.zip_cons_cons, List.filterMap_cons]
      by_cases he : (parsedSets ph.adds).isEmpty
      · rw [if_pos he]
        simp [he]
      · rw [if_neg he]
        simp [he]

/-- C10: for a completed extended-variant session (one phase of user actions
per routine exercise), the persisted log's `exercises` list holds exactly
the routine exercises for which at least one set was recorded, in routine
order, each entry carrying the exercise name, its muscle group, the
recorded sets and the timer-entry text (the user's edit, or the pre-filled
value) as `timer_time`; an exercise advanced past with zero sets (after the
confirmation) leaves no entry. -/
theorem claim_C10_session_log_exercises (logs : List LogRec) (routine : Routine)
    (date : String) (phases : List App.ExPhase)
    (hlen : phases.length = routine.exercises.length) :
    (App.run_session logs routine date phases).session_log.exercises =
      (routine.exercises.zip phases).filterMap (fun p =>
        if (parsedSets p.2.adds).isEmpty then none
        else some ⟨p.1.name, p.1.muscle_group, parsedSets p.2.adds,
          some (p.2.timer_edit.getD
            (App.get_previous_timer_time logs routine.name date p.1.name))⟩) := by
  have h := run_phases_exercises_aux logs routine date phases 0
    (App.init_state logs routine date) rfl rfl rfl (by omega)
    (by
      intro ex hex
      rw [App.init_state]
      dsimp only
      rw [hex])
  rw [App.run_session, h]
  simp [App.init_state]

/-- C10 witness: a two-exercise session where only the first exercise gets
a set produces a one-entry exercises list with the pre-filled "60" timer. -/
theorem claim_C10_witness :
    (App.run_session [] ⟨"Push", [⟨"벤치", "Chest", []⟩, ⟨"스쿼트", "Quad", []⟩]⟩ "2024-05-01"
        [⟨[("100", "5", "2")], none⟩, ⟨[], none⟩]).session_log.exercises =
      [⟨"벤치", "Chest", [⟨1, PyFloat.ofInt 100, 5, 2⟩], some "60"⟩] := by
  rw [claim_C10_session_log_exercises _ _ _ _ (by decide)]
  decide
